import Mathlib

/-!
# login-bot: the OIDC flow walker of `scripts/login-bot.go`

A shallow embedding of the program `scripts/login-bot.go` and of the parts of the Go
standard library it calls (`strings`, `net/url`), followed by the properties of the
redirect-following walk: which requests are issued, with which targets and form fields,
and how the run ends.

Conventions of the embedding.

* A Go `string` is a list of bytes (`GoString`); string literals are UTF-8 encoded.
* The network (identity provider, relying application, cookie jar, redirect following,
  time-outs) is an oracle `Network`: it receives the client calls made so far, the current
  one last, and answers the current one with a transport error or with a response. A
  response carries `resp.Request.URL` (the final URL after redirects) and the bytes that
  `io.ReadAll(resp.Body)` returns.
* A request is one call of `client.Get` or `client.PostForm`; the hops of a redirect chain
  are inside the call, as they are in `net/http`.
* `os.Exit` and a runtime panic end the run; a run is a total function to an `Exit`.
-/

namespace LoginBot

/-! ## Strings -/

/-- A Go `string`: an immutable sequence of bytes. -/
abbrev GoString := List UInt8

/-- A Go string literal, as the compiler stores it: the UTF-8 encoding of its text. -/
def lit (s : String) : GoString := s.data.flatMap String.utf8EncodeChar

/-- Go `strings.Contains(s, substr)`: `substr` occurs in `s` at some byte offset. -/
def stringsContains : GoString → GoString → Bool
  | [], substr => substr.isEmpty
  | c :: t, substr => substr.isPrefixOf (c :: t) || stringsContains t substr

/-- Go `strings.Cut(s, sep)`: the text before and after the first occurrence of `sep`, and
whether `sep` was found; `(s, "", false)` when it does not occur. -/
def stringsCut : GoString → GoString → GoString × GoString × Bool
  | [], sep => if sep.isEmpty then ([], [], true) else ([], [], false)
  | c :: t, sep =>
    if sep.isPrefixOf (c :: t) then ([], (c :: t).drop sep.length, true)
    else
      match stringsCut t sep with
      | (before, after, true) => (c :: before, after, true)
      | (_, _, false) => (c :: t, [], false)

/-- Go `strings.Split(s, string(sep))` for a one-byte separator: the pieces that repeated
`strings.Cut` calls yield, the last piece being the one after the last separator. -/
def stringsSplit (sep : UInt8) : GoString → List GoString
  | [] => [[]]
  | c :: t =>
    if c = sep then [] :: stringsSplit sep t
    else
      match stringsSplit sep t with
      | [] => [[c]]
      | piece :: pieces => (c :: piece) :: pieces

/-- Go `strings.Count(s, string(sep))` for a one-byte separator: the number of bytes of `s`
equal to `sep`. -/
def stringsCount (s : GoString) (sep : UInt8) : Nat :=
  s.count sep

/-- Go `strings.LastIndexByte(s, c)`: the offset of the last `c` in `s`, `none` for `-1`. -/
def stringsLastIndexByte (s : GoString) (c : UInt8) : Option Nat :=
  match s.reverse.indexOf? c with
  | some i => some (s.length - 1 - i)
  | none => none

/-! ## `net/url`: escaping -/

/-- The escaping modes of `net/url` (type `encoding`). -/
inductive Encoding where
  | encodePath
  | encodePathSegment
  | encodeHost
  | encodeZone
  | encodeUserPassword
  | encodeQueryComponent
  | encodeFragment
  deriving DecidableEq, Repr

/-- The byte of an ASCII character. -/
def ch (c : Char) : UInt8 := c.toNat.toUInt8

/-- Go `net/url.ishex`. -/
def ishex (c : UInt8) : Bool :=
  (ch '0' ≤ c && c ≤ ch '9') || (ch 'a' ≤ c && c ≤ ch 'f') || (ch 'A' ≤ c && c ≤ ch 'F')

/-- Go `net/url.unhex`. -/
def unhex (c : UInt8) : UInt8 :=
  if ch '0' ≤ c && c ≤ ch '9' then c - ch '0'
  else if ch 'a' ≤ c && c ≤ ch 'f' then c - ch 'a' + 10
  else if ch 'A' ≤ c && c ≤ ch 'F' then c - ch 'A' + 10
  else 0

/-- Go `net/url.shouldEscape(c, mode)`: whether byte `c` is percent-encoded in `mode`. -/
def shouldEscape (c : UInt8) (mode : Encoding) : Bool :=
  -- unreserved characters (alphanum)
  if (ch 'a' ≤ c && c ≤ ch 'z') || (ch 'A' ≤ c && c ≤ ch 'Z') || (ch '0' ≤ c && c ≤ ch '9') then
    false
  -- sub-delims, ':', '[', ']', '<', '>', '"' are left alone in a host; 39 is the apostrophe
  else if (mode = .encodeHost || mode = .encodeZone) &&
      [ch '!', ch '$', ch '&', 39, ch '(', ch ')', ch '*', ch '+', ch ',', ch ';', ch '=',
        ch ':', ch '[', ch ']', ch '<', ch '>', ch '"'].contains c then
    false
  -- unreserved characters (mark)
  else if [ch '-', ch '_', ch '.', ch '~'].contains c then
    false
  -- reserved characters
  else if [ch '$', ch '&', ch '+', ch ',', ch '/', ch ':', ch ';', ch '=', ch '?',
      ch '@'].contains c then
    match mode with
    | .encodePath => c = ch '?'
    | .encodePathSegment => c = ch '/' || c = ch ';' || c = ch ',' || c = ch '?'
    | .encodeUserPassword => c = ch '@' || c = ch '/' || c = ch '?' || c = ch ':'
    | .encodeQueryComponent => true
    | .encodeFragment => false
    | .encodeHost => true
    | .encodeZone => true
  else if mode = .encodeFragment && [ch '!', ch '(', ch ')', ch '*'].contains c then
    false
  else
    true

/-- The digit `"0123456789ABCDEF"[n]` of `net/url.upperhex`, for `n < 16`. -/
def upperhex (n : UInt8) : UInt8 :=
  if n < 10 then ch '0' + n else ch 'A' + (n - 10)

/-- Go `net/url.escape(s, mode)`: a space becomes `+` in a query component, every other
byte that `shouldEscape` selects becomes `%XX`. -/
def escape (s : GoString) (mode : Encoding) : GoString :=
  s.flatMap fun c =>
    if c = ch ' ' && mode = .encodeQueryComponent then [ch '+']
    else if shouldEscape c mode then [ch '%', upperhex (c >>> 4), upperhex (c &&& 15)]
    else [c]

/-- Go `net/url.unescape(s, mode)`: `none` stands for the `EscapeError` or
`InvalidHostError` the function returns on a malformed `%` sequence or host byte. -/
def unescape (mode : Encoding) : GoString → Option GoString
  | [] => some []
  | c :: rest =>
    if c = ch '%' then
      match rest with
      | a :: b :: rest2 =>
        if !(ishex a && ishex b) then none
        else if mode = .encodeHost && unhex a < 8 && !(a = ch '2' && b = ch '5') then none
        else if mode = .encodeZone &&
            (let v := unhex a <<< 4 ||| unhex b
             !(a = ch '2' && b = ch '5') && v ≠ ch ' ' && shouldEscape v .encodeHost) then none
        else (unescape mode rest2).map fun t => (unhex a <<< 4 ||| unhex b) :: t
      | _ => none
    else if c = ch '+' then
      (unescape mode rest).map fun t =>
        (if mode = .encodeQueryComponent then ch ' ' else ch '+') :: t
    else if (mode = .encodeHost || mode = .encodeZone) && c < 0x80 &&
        shouldEscape c .encodeHost then none
    else (unescape mode rest).map fun t => c :: t

/-- Go `net/url.validEncoded(s, mode)`. -/
def validEncoded (s : GoString) (mode : Encoding) : Bool :=
  s.all fun c =>
    [ch '!', ch '$', ch '&', 39, ch '(', ch ')', ch '*', ch '+', ch ',', ch ';', ch '=',
      ch ':', ch '@', ch '[', ch ']', ch '%'].contains c || !shouldEscape c mode

/-! ## `net/url`: the `URL` type -/

/-- Go `url.Userinfo`. -/
structure Userinfo where
  username : GoString := []
  password : GoString := []
  passwordSet : Bool := false
  deriving DecidableEq, Repr

/-- Go `(*Userinfo).String` on a non-nil receiver. -/
def Userinfo.String (ui : Userinfo) : GoString :=
  let s := escape ui.username .encodeUserPassword
  if ui.passwordSet then s ++ lit ":" ++ escape ui.password .encodeUserPassword else s

/-- Go `url.URL`; `User = none` is the nil `*Userinfo`. The defaults are Go zero values. -/
structure URL where
  Scheme : GoString := []
  Opaque : GoString := []
  User : Option Userinfo := none
  Host : GoString := []
  Path : GoString := []
  RawPath : GoString := []
  OmitHost : Bool := false
  ForceQuery : Bool := false
  RawQuery : GoString := []
  Fragment : GoString := []
  RawFragment : GoString := []
  deriving DecidableEq, Repr

/-- Go `(*URL).setPath(p)`: `Path` is the unescaped `p`, and `RawPath` keeps `p` only when
it is not the default encoding of `Path`. `none` is the returned error; the receiver is
then left as it was. -/
def URL.setPath (u : URL) (p : GoString) : Option URL :=
  match unescape .encodePath p with
  | none => none
  | some path =>
    if p = escape path .encodePath then some { u with Path := path, RawPath := [] }
    else some { u with Path := path, RawPath := p }

/-- Go `(*URL).EscapedPath`. -/
def URL.EscapedPath (u : URL) : GoString :=
  if u.RawPath ≠ [] ∧ validEncoded u.RawPath .encodePath = true ∧
      unescape .encodePath u.RawPath = some u.Path then u.RawPath
  else if u.Path = lit "*" then lit "*"
  else escape u.Path .encodePath

/-- Go `(*URL).EscapedFragment`. -/
def URL.EscapedFragment (u : URL) : GoString :=
  if u.RawFragment ≠ [] ∧ validEncoded u.RawFragment .encodeFragment = true ∧
      unescape .encodeFragment u.RawFragment = some u.Fragment then u.RawFragment
  else escape u.Fragment .encodeFragment

/-- Go `(*URL).String`: `scheme:opaque?query#fragment` or
`scheme://userinfo@host/path?query#fragment`, each part written only when present. -/
def URL.String (u : URL) : GoString :=
  let buf : GoString := if u.Scheme ≠ [] then u.Scheme ++ lit ":" else []
  let buf : GoString :=
    if u.Opaque ≠ [] then buf ++ u.Opaque
    else
      let buf : GoString :=
        if u.Scheme ≠ [] ∨ u.Host ≠ [] ∨ u.User ≠ none then
          if u.OmitHost = true ∧ u.Host = [] ∧ u.User = none then buf
          else
            let buf : GoString :=
              if u.Host ≠ [] ∨ u.Path ≠ [] ∨ u.User ≠ none then buf ++ lit "//" else buf
            let buf : GoString :=
              match u.User with
              | some ui => buf ++ ui.String ++ lit "@"
              | none => buf
            if u.Host ≠ [] then buf ++ escape u.Host .encodeHost else buf
        else buf
      let path := u.EscapedPath
      let buf : GoString :=
        if path ≠ [] ∧ path.head? ≠ some (ch '/') ∧ u.Host ≠ [] then buf ++ lit "/" else buf
      let buf : GoString :=
        if buf = [] ∧ stringsContains (stringsCut path (lit "/")).1 (lit ":") = true then
          buf ++ lit "./"
        else buf
      buf ++ path
  let buf : GoString :=
    if u.ForceQuery = true ∨ u.RawQuery ≠ [] then buf ++ lit "?" ++ u.RawQuery else buf
  if u.Fragment ≠ [] then buf ++ lit "#" ++ u.EscapedFragment else buf

/-- The loop body of Go `net/url.resolvePath`: `dst` is the builder's content (it starts
with the `/` written first), `first` the flag of the same name. -/
def resolvePathStep (st : GoString × Bool) (elem : GoString) : GoString × Bool :=
  let (dst, first) := st
  if elem = lit "." then (dst, false)
  else if elem = lit ".." then
    let str := dst.drop 1
    match stringsLastIndexByte str (ch '/') with
    | none => (lit "/", true)
    | some index => (lit "/" ++ str.take index, false)
  else
    ((if first then dst else dst ++ lit "/") ++ elem, false)

/-- Go `net/url.resolvePath(base, ref)`: `ref` resolved against `base`, with `.` and `..`
segments removed. -/
def resolvePath (base ref : GoString) : GoString :=
  let full : GoString :=
    if ref = [] then base
    else if ref.head? ≠ some (ch '/') then
      (match stringsLastIndexByte base (ch '/') with
        | some i => base.take (i + 1)
        | none => []) ++ ref
    else ref
  if full = [] then []
  else
    let elems := stringsSplit (ch '/') full
    let dst := (elems.foldl resolvePathStep (lit "/", true)).1
    let elem := elems.getLastD []
    let r := if elem = lit "." ∨ elem = lit ".." then dst ++ lit "/" else dst
    if r.length > 1 ∧ r.get? 1 = some (ch '/') then r.drop 1 else r

/-- Go `(*URL).ResolveReference(ref)`, RFC 3986 section 5.2. A `setPath` error is ignored,
as in the library. -/
def URL.ResolveReference (u ref : URL) : URL :=
  let url : URL := if ref.Scheme = [] then { ref with Scheme := u.Scheme } else ref
  if ref.Scheme ≠ [] ∨ ref.Host ≠ [] ∨ ref.User ≠ none then
    (url.setPath (resolvePath ref.EscapedPath [])).getD url
  else if ref.Opaque ≠ [] then
    { url with User := none, Host := [], Path := [] }
  else
    let url : URL :=
      if ref.Path = [] ∧ ref.ForceQuery = false ∧ ref.RawQuery = [] then
        if ref.Fragment = [] then
          { url with RawQuery := u.RawQuery, Fragment := u.Fragment, RawFragment := u.RawFragment }
        else { url with RawQuery := u.RawQuery }
      else url
    if ref.Path = [] ∧ u.Opaque ≠ [] then
      { url with Opaque := u.Opaque, User := none, Host := [], Path := [] }
    else
      let url : URL := { url with Host := u.Host, User := u.User }
      (url.setPath (resolvePath u.EscapedPath ref.EscapedPath)).getD url

/-- Go `url.Parse(rawURL)` on a raw URL that is an absolute path and nothing else, which is
what the one reference the program parses, the literal `/consent`, is: it has no control
byte, no `#`, no `?` and no `:`, and starts with a single `/`, so the parser finds no
fragment, scheme, query or authority and ends in `setPath(rawURL)` on the zero `URL`. -/
def ParseAbsPath (rawURL : GoString) : Option URL :=
  URL.setPath {} rawURL

/-- Go `(*URL).Parse(ref)` for such a reference: parse it, then resolve it against the
receiver. `none` is the `(nil, err)` result. -/
def URL.Parse (u : URL) (ref : GoString) : Option URL :=
  match ParseAbsPath ref with
  | none => none
  | some refURL => some (u.ResolveReference refURL)

/-! ## `net/url`: form values -/

/-- Go `url.Values`, a `map[string][]string`, as an association list with at most one entry
per key. The order of the entries has no meaning; the order of a key's values has. -/
abbrev Values := List (GoString × List GoString)

/-- The map lookup `v[key]` with its presence flag: `none` when `key` has no entry. -/
def Values.lookup (v : Values) (key : GoString) : Option (List GoString) :=
  List.lookup key v

/-- The map lookup `v[key]`: the nil (empty) slice when `key` has no entry. -/
def Values.index (v : Values) (key : GoString) : List GoString :=
  (v.lookup key).getD []

/-- The map assignment `v[key] = vs`. -/
def Values.assign (v : Values) (key : GoString) (vs : List GoString) : Values :=
  v.filter (fun e => e.1 ≠ key) ++ [(key, vs)]

/-- Go `Values.Set(key, value)`: `v[key] = []string{value}`. -/
def Values.Set (v : Values) (key value : GoString) : Values :=
  v.assign key [value]

/-- Go `Values.Add(key, value)`: `v[key] = append(v[key], value)`. -/
def Values.Add (v : Values) (key value : GoString) : Values :=
  v.assign key (v.index key ++ [value])

/-- One round of the loop of Go `net/url.parseQuery`, on the piece `key` cut off at `&`:
a piece with a semicolon, an empty piece and a piece that does not unescape are skipped. -/
def parseQueryPiece (m : Values) (key : GoString) : Values :=
  if stringsContains key (lit ";") then m
  else if key = [] then m
  else
    match stringsCut key (lit "=") with
    | (key, value, _) =>
      match unescape .encodeQueryComponent key with
      | none => m
      | some key =>
        match unescape .encodeQueryComponent value with
        | none => m
        | some value => m.Add key value

/-- Go `net/url.urlParamsWithinMax(params)` under the default setting of the
`urlmaxqueryparams` debug option: a query may have at most 10000 parameters. -/
def urlParamsWithinMax (params : Nat) : Bool :=
  decide (params ≤ 10000)

/-- Go `(*URL).Query`: `ParseQuery(u.RawQuery)` with its error dropped. `parseQuery` first
counts the parameters, `strings.Count(query, "&") + 1`, and returns with an error and the
map still empty when they exceed the limit. Its loop then cuts the query at each `&` and
handles the pieces from left to right; the empty rest after a last `&` is an empty piece
here, skipped like every empty piece. -/
def URL.Query (u : URL) : Values :=
  if urlParamsWithinMax (stringsCount u.RawQuery (ch '&') + 1) then
    (stringsSplit (ch '&') u.RawQuery).foldl parseQueryPiece []
  else []

/-- The key and the value that one round of the loop of `parseQuery` adds to the map for
the piece `key`; `none` when the round skips the piece. -/
def queryPiece (key : GoString) : Option (GoString × GoString) :=
  if stringsContains key (lit ";") then none
  else if key = [] then none
  else
    match stringsCut key (lit "=") with
    | (key, value, _) =>
      match unescape .encodeQueryComponent key with
      | none => none
      | some key =>
        match unescape .encodeQueryComponent value with
        | none => none
        | some value => some (key, value)

/-! ## The process and the network -/

/-- A response as the program sees it: `resp.Request.URL`, the URL of the last request of
the redirect chain, and the bytes `io.ReadAll(resp.Body)` returns. -/
structure Response where
  URL : URL
  Body : GoString
  deriving DecidableEq, Repr

/-- A call of the HTTP client: `client.Get(url)` or `client.PostForm(url, data)`. -/
inductive Request where
  | Get (url : GoString)
  | PostForm (url : GoString) (data : Values)
  deriving DecidableEq, Repr

/-- The network: given the client calls made so far, the current one last, the result of
the current one, which is an error (its message) or a response. -/
abbrev Network := List Request → Except GoString Response

/-- What a run has done so far: the client calls with their results, the bytes written to
standard output, and the bodies read with `io.ReadAll`, each in order. -/
structure Proc where
  calls : List (Request × Except GoString Response) := []
  stdout : GoString := []
  read : List GoString := []

/-- The end of a run: the exit status and what the run did. -/
structure Exit where
  code : Nat
  proc : Proc

/-- The requests of a run, in the order they were issued. -/
def Proc.requests (p : Proc) : List Request := p.calls.map Prod.fst

/-- A call of the client: the request is logged with the answer of the network. -/
def clientDo (net : Network) (p : Proc) (req : Request) : Proc × Except GoString Response :=
  let res := net (p.requests ++ [req])
  ({ p with calls := p.calls ++ [(req, res)] }, res)

/-- A `fmt.Printf` or `fmt.Println` call writing `s`. -/
def print (p : Proc) (s : GoString) : Proc :=
  { p with stdout := p.stdout ++ s }

/-- A runtime panic: the process ends with status 2. -/
def runtimePanic (p : Proc) : Exit :=
  { code := 2, proc := p }

/-- The slice expression `s[:n]`: `none` when it panics, that is when `n` is out of range. -/
def sliceTo (s : GoString) (n : Int) : Option GoString :=
  if 0 ≤ n ∧ n ≤ (s.length : Int) then some (s.take n.toNat) else none

/-! ## The program -/

/-- The function `min` of the program. -/
def min (a b : Int) : Int :=
  if a < b then a else b

/-- The function `fatal` of the program, `msg` being the formatted message: it prints
`ERROR: msg` and a newline, and exits with status 1. -/
def fatal (p : Proc) (msg : GoString) : Exit :=
  { code := 1, proc := print p (lit "ERROR: " ++ msg ++ lit "\n") }

/-- The form of the login POST: `url.Values{"email": {email}, "password": {password}}`. -/
def loginValues (email password : GoString) : Values :=
  [(lit "email", [email]), (lit "password", [password])]

/-- The form of the consent POST: `values := resp.Request.URL.Query()` followed by
`values.Set("consent", "approve")`. -/
def consentValues (u : URL) : Values :=
  u.Query.Set (lit "consent") (lit "approve")

/-- Lines 34 to 37 of `main`: the start URL is the fourth element of `os.Args` when there
is one, and `http://localhost:8082/login` otherwise. -/
def startURL (osArgs : List GoString) : GoString :=
  if osArgs.length > 3 then osArgs.getD 3 [] else lit "http://localhost:8082/login"

/-- Lines 29 to 58 of `main`: the arguments, the greeting and the GET of the start URL.
The result is the email, the password, and the response landed on. -/
def initiate (osArgs : List GoString) (net : Network) :
    Except Exit (GoString × GoString × Proc × Response) :=
  if osArgs.length < 3 then
    .error (fatal {} (lit "Usage: login-bot <email> <password> [start_url]"))
  else
    let email := osArgs.getD 1 []
    let password := osArgs.getD 2 []
    let startURL := startURL osArgs
    let p := print {} (lit "1. Starting flow at " ++ startURL ++ lit "\n")
    match clientDo net p (.Get startURL) with
    | (p, .error err) => .error (fatal p (lit "Failed to get start URL: " ++ err))
    | (p, .ok resp) =>
      .ok (email, password, print p (lit "2. Landed at " ++ resp.URL.String ++ lit "\n"), resp)

/-- Lines 60 to 82 of `main`, "2. Handle Login": on a path containing `/login` the
credentials are posted to the URL landed on, and the answer becomes the response. -/
def handleLogin (net : Network) (email password : GoString) (p : Proc) (resp : Response) :
    Except Exit (Proc × Response) :=
  if stringsContains resp.URL.Path (lit "/login") then
    let p := print p (lit "   - Detected Login Page. Posting credentials...\n")
    let loginAction := resp.URL.String
    let values := loginValues email password
    match clientDo net p (.PostForm loginAction values) with
    | (p, .error err) => .error (fatal p (lit "Login POST failed: " ++ err))
    | (p, .ok resp2) =>
      .ok (print p (lit "3. Post Login ended at: " ++ resp2.URL.String ++ lit "\n"), resp2)
  else .ok (p, resp)

/-- Lines 84 to 103 of `main`, "3. Handle Consent": on a path containing `/consent` the
query parameters and `consent=approve` are posted to `/consent` resolved against the
current URL. A nil `consentUrl` would panic in `consentUrl.String()`. -/
def handleConsent (net : Network) (p : Proc) (resp : Response) :
    Except Exit (Proc × Response) :=
  if stringsContains resp.URL.Path (lit "/consent") then
    let p := print p (lit "   - Detected Consent Page. Approving...\n")
    let values := consentValues resp.URL
    match resp.URL.Parse (lit "/consent") with
    | none => .error (runtimePanic p)
    | some consentUrl =>
      match clientDo net p (.PostForm consentUrl.String values) with
      | (p, .error err) => .error (fatal p (lit "Consent POST failed: " ++ err))
      | (p, .ok resp3) =>
        .ok (print p (lit "4. Post Consent ended at: " ++ resp3.URL.String ++ lit "\n"), resp3)
  else .ok (p, resp)

/-- Lines 106 to 121 of `main`, "4. Verify Success": the body is read and searched for
`Login Successful`; without it the URL and `body[:min(len(body), 500)]` are printed and the
run exits with status 1. -/
def verifySuccess (p : Proc) (resp : Response) : Exit :=
  let body := resp.Body
  let p := { p with read := p.read ++ [body] }
  if stringsContains body (lit "Login Successful") then
    { code := 0, proc := print p (lit "=== SUCCESS: OIDC Flow Completed ===\n") }
  else
    match sliceTo body (min body.length 500) with
    | none => runtimePanic p
    | some preview =>
      { code := 1
        proc := print p (lit "FAILURE: Did not see success message.\nURL: " ++
          resp.URL.String ++ lit "\nBody Preview:\n" ++ preview ++ lit "\n") }

/-- Lines 29 to 82 of `main`: the run up to the consent check of line 86, with the
response that is current there. -/
def untilConsentCheck (osArgs : List GoString) (net : Network) :
    Except Exit (Proc × Response) :=
  match initiate osArgs net with
  | .error e => .error e
  | .ok (email, password, p, resp) => handleLogin net email password p resp

/-- The function `main` of the program, on the arguments `os.Args` and a network. -/
def main (osArgs : List GoString) (net : Network) : Exit :=
  match untilConsentCheck osArgs net with
  | .error e => e
  | .ok (p, resp) =>
    match handleConsent net p resp with
    | .error e => e
    | .ok (p, resp) => verifySuccess p resp

/-- The log of calls agrees with the network: each logged result is the answer of the
network to that request after the requests before it. -/
def Proc.Sound (net : Network) (p : Proc) : Prop :=
  ∀ i req res, p.calls.get? i = some (req, res) → net (p.requests.take i ++ [req]) = res

/-! ## Kinds of request -/

/-- The request is a `client.Get` call. -/
def Request.isGet : Request → Bool
  | .Get _ => true
  | .PostForm _ _ => false

/-- The request is a `client.PostForm` call. -/
def Request.isPost : Request → Bool
  | .Get _ => false
  | .PostForm _ _ => true

/-- The request is a POST whose form has the fields `email` and `password` and no other,
as the POST of line 73 has. -/
def Request.isLoginPost : Request → Bool
  | .Get _ => false
  | .PostForm _ data =>
    data.all (fun e => e.1 = lit "email" || e.1 = lit "password") &&
      (data.lookup (lit "email")).isSome && (data.lookup (lit "password")).isSome

/-- The request is a POST whose form has the field `consent` with the one value `approve`,
as the POST of line 95 has. -/
def Request.isConsentPost : Request → Bool
  | .Get _ => false
  | .PostForm _ data => data.lookup (lit "consent") = some [lit "approve"]

/-! ## Scenarios -/

/-- The URL `http://localhost:8082` followed by `path` and, after `?`, `query`. -/
def localURL (path query : GoString) : URL :=
  { Scheme := lit "http", Host := lit "localhost:8082", Path := path, RawQuery := query }

/-- A network with the full flow: the start URL lands on `/login?return_to=/app`, the
login POST on `/consent?client_id=abc&return_to=/app`, and the consent POST on a callback
page whose body is `body`. -/
def scenarioB (body : GoString) : Network := fun reqs =>
  match reqs with
  | [.Get _] => .ok { URL := localURL (lit "/login") (lit "return_to=/app"), Body := lit "<form>" }
  | [.Get _, .PostForm _ _] =>
    .ok { URL := localURL (lit "/consent") (lit "client_id=abc&return_to=/app"),
          Body := lit "<form>" }
  | [.Get _, .PostForm _ _, .PostForm _ _] =>
    .ok { URL := localURL (lit "/callback") (lit "code=xyz"), Body := body }
  | _ => .error (lit "connection refused")

/-- A consent page on a longer path, with a repeated key and two `consent` values in the
query, and with a fragment. -/
def consentPage : Response :=
  { URL := { Scheme := lit "https", Host := lit "idp.example", Path := lit "/auth/consent/step2",
             RawQuery := lit "scope=a&consent=deny&scope=b&consent=later",
             Fragment := lit "top" },
    Body := lit "<form>" }

/-- A network on which the start URL lands on `consentPage` at once, and the consent POST
lands on a `/login` page whose body is `body`. -/
def consentFirst (body : GoString) : Network := fun reqs =>
  match reqs with
  | [.Get _] => .ok consentPage
  | [.Get _, .PostForm _ _] =>
    .ok { URL := localURL (lit "/login") [], Body := body }
  | _ => .error (lit "connection refused")

/-- A network on which the start URL lands on the login page and the login POST lands on
the login page again, as after wrong credentials. -/
def loginAgain : Network := fun reqs =>
  match reqs with
  | [.Get _] => .ok { URL := localURL (lit "/login") [], Body := lit "<form>" }
  | [.Get _, .PostForm _ _] =>
    .ok { URL := localURL (lit "/login") (lit "error=1"), Body := lit "Invalid credentials" }
  | _ => .error (lit "connection refused")

/-- A network on which the start URL lands on
`/consent?client_id=abc&return_to=%2Fapp&state=x;y`, a query whose last piece holds a
semicolon, and the consent POST on a page with the success marker. -/
def semicolonConsent : Network := fun reqs =>
  match reqs with
  | [.Get _] =>
    .ok { URL := localURL (lit "/consent") (lit "client_id=abc&return_to=%2Fapp&state=x;y"),
          Body := lit "<form>" }
  | [.Get _, .PostForm _ _] =>
    .ok { URL := localURL (lit "/callback") [], Body := lit "Login Successful" }
  | _ => .error (lit "connection refused")

/-- A network on which every call fails with a timeout. -/
def timeoutNet : Network := fun _ => .error (lit "context deadline exceeded")

/-- A network that answers every call with the same response. -/
def constNet (resp : Response) : Network := fun _ => .ok resp

/-- A text of 300 characters, each the letter e with an acute accent, which UTF-8 encodes
in two bytes. -/
def accented : String := String.mk (List.replicate 300 'é')

/-! ## Lemmas on strings and form values -/

theorem stringsContains_iff (s substr : GoString) :
    stringsContains s substr = true ↔ substr <:+: s := by
  induction s with
  | nil =>
    cases substr <;> simp [stringsContains]
  | cons c t ih =>
    simp only [stringsContains, Bool.or_eq_true, ih, List.isPrefixOf_iff_prefix]
    rw [List.infix_cons_iff]

theorem stringsContains_append (pre substr post : GoString) :
    stringsContains (pre ++ substr ++ post) substr = true := by
  rw [stringsContains_iff]
  exact ⟨pre, post, rfl⟩

theorem lookup_cons_eq (key : GoString) (vs : List GoString) (rest : Values) :
    List.lookup key ((key, vs) :: rest) = some vs := by
  simp [List.lookup]

theorem lookup_cons_ne (key k : GoString) (vs : List GoString) (rest : Values) (h : key ≠ k) :
    List.lookup key ((k, vs) :: rest) = List.lookup key rest := by
  simp [List.lookup, beq_false_of_ne h]

theorem Values.lookup_assign (v : Values) (key key2 : GoString) (vs : List GoString) :
    (v.assign key vs).lookup key2 = if key2 = key then some vs else v.lookup key2 := by
  unfold Values.assign Values.lookup
  induction v with
  | nil =>
    by_cases h : key2 = key
    · subst h
      simp [lookup_cons_eq]
    · simp [h, lookup_cons_ne _ _ _ _ h]
  | cons e rest ih =>
    obtain ⟨k, x⟩ := e
    by_cases hk : k = key
    · subst hk
      have : List.filter (fun e : GoString × List GoString => decide (e.1 ≠ k)) ((k, x) :: rest)
          = List.filter (fun e => decide (e.1 ≠ k)) rest := by
        simp [List.filter]
      rw [this, ih]
      by_cases h : key2 = k
      · simp [h]
      · simp [h, lookup_cons_ne _ _ _ _ h]
    · have : List.filter (fun e : GoString × List GoString => decide (e.1 ≠ key)) ((k, x) :: rest)
          = (k, x) :: List.filter (fun e => decide (e.1 ≠ key)) rest := by
        simp [List.filter, hk]
      rw [this, List.cons_append]
      by_cases h2 : key2 = k
      · subst h2
        simp [hk, lookup_cons_eq]
      · rw [lookup_cons_ne _ _ _ _ h2, lookup_cons_ne _ _ _ _ h2, ih]

theorem consentValues_lookup (u : URL) (key : GoString) :
    (consentValues u).lookup key =
      if key = lit "consent" then some [lit "approve"] else u.Query.lookup key := by
  unfold consentValues Values.Set
  exact Values.lookup_assign _ _ _ _

theorem lookup_some_mem (v : Values) (key : GoString) (vs : List GoString)
    (h : v.lookup key = some vs) : (key, vs) ∈ v := by
  unfold Values.lookup at h
  induction v with
  | nil => simp [List.lookup] at h
  | cons e rest ih =>
    obtain ⟨k, x⟩ := e
    by_cases hk : key = k
    · subst hk
      rw [lookup_cons_eq] at h
      simp at h
      simp [h]
    · rw [lookup_cons_ne _ _ _ _ hk] at h
      exact List.mem_cons_of_mem _ (ih h)

/-! ## Lemmas on the consent target -/

theorem parse_consent (u : URL) :
    u.Parse (lit "/consent") =
      some { Scheme := u.Scheme, User := u.User, Host := u.Host, Path := lit "/consent" } := by
  have h1 : ParseAbsPath (lit "/consent") = some { Path := lit "/consent" } := by decide
  have h2 : (URL.EscapedPath { Path := lit "/consent" }) = lit "/consent" := by decide
  have h3 : ∀ base, resolvePath base (lit "/consent") = lit "/consent" := by
    intro base
    unfold resolvePath
    have e1 : (lit "/consent" : GoString) ≠ [] := by decide
    have e2 : (lit "/consent" : GoString).head? = some (ch '/') := by decide
    simp only [e1, e2, if_false, ne_eq, not_true_eq_false]
    decide
  have h4 : ∀ v : URL, v.setPath (lit "/consent") =
      some { v with Path := lit "/consent", RawPath := [] } := by
    intro v
    have e1 : unescape .encodePath (lit "/consent") = some (lit "/consent") := by decide
    have e2 : lit "/consent" = escape (lit "/consent") .encodePath := by decide
    unfold URL.setPath
    rw [e1]
    simp only [← e2, if_true]
  have e1 : (lit "/consent" : GoString) ≠ [] := by decide
  unfold URL.Parse
  rw [h1]
  unfold URL.ResolveReference
  simp [h2, h3, h4, e1]

theorem escape_nil (mode : Encoding) : escape [] mode = [] := rfl

theorem consent_string (scheme host : GoString) (user : Option Userinfo) :
    URL.String { Scheme := scheme, User := user, Host := host, Path := lit "/consent" } =
      (if scheme = [] then [] else scheme ++ lit ":") ++
      (if scheme = [] ∧ host = [] ∧ user = none then []
        else lit "//" ++ (match user with
          | some ui => ui.String ++ lit "@"
          | none => []) ++ escape host .encodeHost) ++
      lit "/consent" := by
  have e0 : ∀ (s h : GoString) (us : Option Userinfo),
      URL.EscapedPath { Scheme := s, User := us, Host := h, Path := lit "/consent" }
        = lit "/consent" := by
    intro s h us
    unfold URL.EscapedPath
    simp
    decide
  have e1 : (lit "/consent" : GoString) ≠ [] := by decide
  have e2 : (lit "/consent" : GoString).head? = some (ch '/') := by decide
  have e3 : stringsContains (stringsCut (lit "/consent") (lit "/")).1 (lit ":") = false := by
    decide
  unfold URL.String
  simp only [e0, e1, e2, e3]
  by_cases hs : scheme = [] <;> by_cases hh : host = [] <;> cases user <;>
    simp [hs, hh, escape_nil, e1]


theorem initiate_ok (osArgs : List GoString) (net : Network) (email password : GoString)
    (p : Proc) (resp : Response) (h : initiate osArgs net = .ok (email, password, p, resp)) :
    3 ≤ osArgs.length ∧ email = osArgs.getD 1 [] ∧ password = osArgs.getD 2 [] ∧
      p.calls = [(.Get (startURL osArgs), .ok resp)] ∧ p.read = [] ∧
      net [.Get (startURL osArgs)] = .ok resp := by
  unfold initiate at h
  split at h
  · simp at h
  · rename_i hlen
    simp only [clientDo, print, Proc.requests] at h
    split at h
    · simp at h
    · rename_i p1 r1 heq
      simp only [Except.ok.injEq, Prod.mk.injEq] at h heq
      obtain ⟨h1, h2, h3, h4⟩ := h
      obtain ⟨h5, h6⟩ := heq
      subst h1 h2 h3 h4 h5
      simp at h6
      simp [h6]
      omega

theorem initiate_error (osArgs : List GoString) (net : Network) (x : Exit)
    (h : initiate osArgs net = .error x) :
    x.code = 1 ∧ x.proc.read = [] ∧
      ((osArgs.length < 3 ∧ x.proc.calls = [] ∧
          x.proc.stdout = lit "ERROR: Usage: login-bot <email> <password> [start_url]\n") ∨
        (3 ≤ osArgs.length ∧ ∃ err, x.proc.calls = [(.Get (startURL osArgs), .error err)] ∧
          net [.Get (startURL osArgs)] = .error err)) := by
  unfold initiate at h
  split at h
  · rename_i hlen
    simp only [Except.error.injEq] at h
    subst h
    refine ⟨rfl, rfl, Or.inl ⟨hlen, rfl, ?_⟩⟩
    simp only [fatal, print]
    decide
  · rename_i hlen
    simp only [clientDo, print, Proc.requests] at h
    split at h
    · rename_i p1 err heq
      simp only [Except.error.injEq, Prod.mk.injEq] at h heq
      obtain ⟨h5, h6⟩ := heq
      subst h h5
      simp at h6
      simp [fatal, print, h6]
      omega
    · simp at h

theorem handleLogin_ok (net : Network) (email password : GoString) (p p2 : Proc)
    (resp cur : Response) (h : handleLogin net email password p resp = .ok (p2, cur)) :
    p2.read = p.read ∧
      ((stringsContains resp.URL.Path (lit "/login") = false ∧ p2 = p ∧ cur = resp) ∨
        (stringsContains resp.URL.Path (lit "/login") = true ∧
          p2.calls = p.calls ++
            [(.PostForm resp.URL.String (loginValues email password), .ok cur)] ∧
          net (p.requests ++ [.PostForm resp.URL.String (loginValues email password)]) =
            .ok cur)) := by
  unfold handleLogin at h
  split at h
  · rename_i hlogin
    simp only [clientDo, print, Proc.requests] at h
    split at h
    · simp at h
    · rename_i p1 r2 heq
      simp only [Except.ok.injEq, Prod.mk.injEq] at h heq
      obtain ⟨h1, h2⟩ := h
      obtain ⟨h5, h6⟩ := heq
      subst h1 h2 h5
      simp [h6, hlogin, Proc.requests]
  · rename_i hlogin
    simp only [Except.ok.injEq, Prod.mk.injEq] at h
    obtain ⟨h1, h2⟩ := h
    subst h1 h2
    simp [hlogin]

theorem handleLogin_error (net : Network) (email password : GoString) (p : Proc)
    (resp : Response) (x : Exit) (h : handleLogin net email password p resp = .error x) :
    x.code = 1 ∧ x.proc.read = p.read ∧
      stringsContains resp.URL.Path (lit "/login") = true ∧
      ∃ err, x.proc.calls = p.calls ++
          [(.PostForm resp.URL.String (loginValues email password), .error err)] ∧
        net (p.requests ++ [.PostForm resp.URL.String (loginValues email password)]) =
          .error err := by
  unfold handleLogin at h
  split at h
  · rename_i hlogin
    simp only [clientDo, print, Proc.requests] at h
    split at h
    · rename_i p1 err heq
      simp only [Except.error.injEq, Prod.mk.injEq] at h heq
      obtain ⟨h5, h6⟩ := heq
      subst h h5
      simp [fatal, print, h6, hlogin, Proc.requests]
    · simp at h
  · simp at h

theorem handleConsent_ok (net : Network) (p p2 : Proc) (cur fin : Response)
    (h : handleConsent net p cur = .ok (p2, fin)) :
    p2.read = p.read ∧
      ((stringsContains cur.URL.Path (lit "/consent") = false ∧ p2 = p ∧ fin = cur) ∨
        (stringsContains cur.URL.Path (lit "/consent") = true ∧
          p2.calls = p.calls ++
            [(.PostForm
                (URL.String
                  { Scheme := cur.URL.Scheme
                    User := cur.URL.User
                    Host := cur.URL.Host
                    Path := lit "/consent" })
                (consentValues cur.URL), .ok fin)] ∧
          net (p.requests ++
            [.PostForm
                (URL.String
                  { Scheme := cur.URL.Scheme
                    User := cur.URL.User
                    Host := cur.URL.Host
                    Path := lit "/consent" })
                (consentValues cur.URL)]) = .ok fin)) := by
  unfold handleConsent at h
  rw [parse_consent] at h
  split at h
  · rename_i hc
    simp only [clientDo, print, Proc.requests] at h
    split at h
    · simp at h
    · rename_i p1 r2 heq
      simp only [Except.ok.injEq, Prod.mk.injEq] at h heq
      obtain ⟨h1, h2⟩ := h
      obtain ⟨h5, h6⟩ := heq
      subst h1 h2 h5
      simp [h6, hc, Proc.requests]
  · rename_i hc
    simp only [Except.ok.injEq, Prod.mk.injEq] at h
    obtain ⟨h1, h2⟩ := h
    subst h1 h2
    simp [hc]

theorem handleConsent_error (net : Network) (p : Proc) (cur : Response) (x : Exit)
    (h : handleConsent net p cur = .error x) :
    x.code = 1 ∧ x.proc.read = p.read ∧
      stringsContains cur.URL.Path (lit "/consent") = true ∧
      ∃ err, x.proc.calls = p.calls ++
          [(.PostForm
              (URL.String
                { Scheme := cur.URL.Scheme
                  User := cur.URL.User
                  Host := cur.URL.Host
                  Path := lit "/consent" })
              (consentValues cur.URL), .error err)] ∧
        net (p.requests ++
          [.PostForm
              (URL.String
                { Scheme := cur.URL.Scheme
                  User := cur.URL.User
                  Host := cur.URL.Host
                  Path := lit "/consent" })
              (consentValues cur.URL)]) = .error err := by
  unfold handleConsent at h
  rw [parse_consent] at h
  split at h
  · rename_i hc
    simp only [clientDo, print, Proc.requests] at h
    split at h
    · rename_i p1 err heq
      simp only [Except.error.injEq, Prod.mk.injEq] at h heq
      obtain ⟨h5, h6⟩ := heq
      subst h h5
      simp [fatal, print, h6, hc, Proc.requests]
    · simp at h
  · simp at h

theorem min_len (n : Nat) : min (n : Int) 500 = ((Nat.min n 500 : Nat) : Int) := by
  unfold min
  split
  · rename_i h
    have : n < 500 := by omega
    simp [Nat.min_def]
    omega
  · rename_i h
    have : 500 ≤ n := by omega
    simp [Nat.min_def]
    omega

theorem sliceTo_min (body : GoString) :
    sliceTo body (min body.length 500) = some (body.take 500) := by
  rw [min_len]
  unfold sliceTo
  have h1 : (0 : Int) ≤ ((Nat.min body.length 500 : Nat) : Int) := Int.ofNat_nonneg _
  have h2 : ((Nat.min body.length 500 : Nat) : Int) ≤ (body.length : Int) := by
    have : Nat.min body.length 500 ≤ body.length := Nat.min_le_left _ _
    exact_mod_cast this
  rw [if_pos ⟨h1, h2⟩]
  simp only [Int.toNat_ofNat, Option.some.injEq]
  rw [show Nat.min body.length 500 = Nat.min 500 body.length from Nat.min_comm _ _]
  exact (List.take_eq_take.mpr (by simp [Nat.min_def]; split <;> omega))

/-! ## Lemmas on the run -/

theorem verifySuccess_calls (p : Proc) (fin : Response) :
    (verifySuccess p fin).proc.calls = p.calls ∧
      (verifySuccess p fin).proc.read = p.read ++ [fin.Body] := by
  unfold verifySuccess
  simp only [sliceTo_min]
  split <;> simp [print]

theorem verifySuccess_marker (p : Proc) (fin : Response)
    (h : stringsContains fin.Body (lit "Login Successful") = true) :
    (verifySuccess p fin).code = 0 ∧
      (verifySuccess p fin).proc.stdout =
        p.stdout ++ lit "=== SUCCESS: OIDC Flow Completed ===\n" := by
  unfold verifySuccess
  simp [h, print]

theorem verifySuccess_no_marker (p : Proc) (fin : Response)
    (h : stringsContains fin.Body (lit "Login Successful") = false) :
    (verifySuccess p fin).code = 1 ∧
      (verifySuccess p fin).proc.stdout =
        p.stdout ++ (lit "FAILURE: Did not see success message.\nURL: " ++
          fin.URL.String ++ lit "\nBody Preview:\n" ++ fin.Body.take 500 ++ lit "\n") := by
  unfold verifySuccess
  simp [h, print, sliceTo_min]

/-- The state at the consent check: either the GET landed off `/login` and its response is
current, or it landed on `/login` and the answer to the login POST is current. -/
theorem untilConsentCheck_ok (osArgs : List GoString) (net : Network) (p : Proc)
    (cur : Response) (h : untilConsentCheck osArgs net = .ok (p, cur)) :
    3 ≤ osArgs.length ∧ p.read = [] ∧
      ((stringsContains cur.URL.Path (lit "/login") = false ∧
          p.calls = [(.Get (startURL osArgs), .ok cur)] ∧
          net [.Get (startURL osArgs)] = .ok cur) ∨
        (∃ r1, stringsContains r1.URL.Path (lit "/login") = true ∧
          p.calls = [(.Get (startURL osArgs), .ok r1),
            (.PostForm r1.URL.String (loginValues (osArgs.getD 1 []) (osArgs.getD 2 [])),
              .ok cur)] ∧
          net [.Get (startURL osArgs)] = .ok r1 ∧
          net [.Get (startURL osArgs),
            .PostForm r1.URL.String (loginValues (osArgs.getD 1 []) (osArgs.getD 2 []))] =
              .ok cur)) := by
  unfold untilConsentCheck at h
  split at h
  · simp at h
  · rename_i email password p1 r1 hinit
    obtain ⟨hlen, he, hp, hcalls, hread, hnet⟩ := initiate_ok _ _ _ _ _ _ hinit
    obtain ⟨hr, hcase⟩ := handleLogin_ok _ _ _ _ _ _ _ h
    refine ⟨hlen, by rw [hr, hread], ?_⟩
    rcases hcase with ⟨hno, hpp, hcur⟩ | ⟨hyes, hc, hn2⟩
    · subst hcur hpp
      exact Or.inl ⟨hno, hcalls, hnet⟩
    · refine Or.inr ⟨r1, hyes, ?_, hnet, ?_⟩
      · rw [hc, hcalls, he, hp]
        rfl
      · rw [← hn2, Proc.requests, hcalls, he, hp]
        rfl

theorem untilConsentCheck_error (osArgs : List GoString) (net : Network) (x : Exit)
    (h : untilConsentCheck osArgs net = .error x) :
    x.code = 1 ∧ x.proc.read = [] ∧
      ((osArgs.length < 3 ∧ x.proc.calls = [] ∧
          x.proc.stdout = lit "ERROR: Usage: login-bot <email> <password> [start_url]\n") ∨
        (3 ≤ osArgs.length ∧ ∃ err, x.proc.calls = [(.Get (startURL osArgs), .error err)] ∧
          net [.Get (startURL osArgs)] = .error err) ∨
        (3 ≤ osArgs.length ∧ ∃ r1 err, stringsContains r1.URL.Path (lit "/login") = true ∧
          x.proc.calls = [(.Get (startURL osArgs), .ok r1),
            (.PostForm r1.URL.String (loginValues (osArgs.getD 1 []) (osArgs.getD 2 [])),
              .error err)] ∧
          net [.Get (startURL osArgs)] = .ok r1 ∧
          net [.Get (startURL osArgs),
            .PostForm r1.URL.String (loginValues (osArgs.getD 1 []) (osArgs.getD 2 []))] =
              .error err)) := by
  unfold untilConsentCheck at h
  split at h
  · rename_i e hinit
    simp only [Except.error.injEq] at h
    subst h
    obtain ⟨hc, hr, hcase⟩ := initiate_error _ _ _ hinit
    refine ⟨hc, hr, ?_⟩
    rcases hcase with h1 | h2
    · exact Or.inl h1
    · exact Or.inr (Or.inl h2)
  · rename_i email password p1 r1 hinit
    obtain ⟨hlen, he, hp, hcalls, hread, hnet⟩ := initiate_ok _ _ _ _ _ _ hinit
    obtain ⟨hc, hr, hyes, err, hcl, hn2⟩ := handleLogin_error _ _ _ _ _ _ h
    refine ⟨hc, by rw [hr, hread], Or.inr (Or.inr ⟨hlen, r1, err, hyes, ?_, hnet, ?_⟩)⟩
    · rw [hcl, hcalls, he, hp]
      rfl
    · rw [← hn2, Proc.requests, hcalls, he, hp]
      rfl

/-- Every run is of one of six kinds: the usage error; a failed GET; a failed login POST;
a verification without consent POST; a failed consent POST; a verification after the
consent POST. In the last three `p` is the state at the consent check and `cur` the
response current there. -/
theorem main_leaves (osArgs : List GoString) (net : Network) :
    (osArgs.length < 3 ∧ (main osArgs net).proc.calls = [] ∧ (main osArgs net).code = 1 ∧
      (main osArgs net).proc.read = [] ∧
      (main osArgs net).proc.stdout =
        lit "ERROR: Usage: login-bot <email> <password> [start_url]\n") ∨
    (3 ≤ osArgs.length ∧ (main osArgs net).code = 1 ∧ (main osArgs net).proc.read = [] ∧
      ∃ err, (main osArgs net).proc.calls = [(.Get (startURL osArgs), .error err)] ∧
        net [.Get (startURL osArgs)] = .error err) ∨
    (3 ≤ osArgs.length ∧ (main osArgs net).code = 1 ∧ (main osArgs net).proc.read = [] ∧
      ∃ r1 err, stringsContains r1.URL.Path (lit "/login") = true ∧
        (main osArgs net).proc.calls = [(.Get (startURL osArgs), .ok r1),
          (.PostForm r1.URL.String (loginValues (osArgs.getD 1 []) (osArgs.getD 2 [])),
            .error err)] ∧
        net [.Get (startURL osArgs)] = .ok r1) ∨
    (∃ p cur, untilConsentCheck osArgs net = .ok (p, cur) ∧
      stringsContains cur.URL.Path (lit "/consent") = false ∧
      (main osArgs net).proc.calls = p.calls ∧ (main osArgs net).proc.read = [cur.Body] ∧
      main osArgs net = verifySuccess p cur) ∨
    (∃ p cur, untilConsentCheck osArgs net = .ok (p, cur) ∧
      stringsContains cur.URL.Path (lit "/consent") = true ∧
      (main osArgs net).code = 1 ∧ (main osArgs net).proc.read = [] ∧
      ∃ err, (main osArgs net).proc.calls = p.calls ++
        [(.PostForm
            (URL.String
              { Scheme := cur.URL.Scheme
                User := cur.URL.User
                Host := cur.URL.Host
                Path := lit "/consent" })
            (consentValues cur.URL), .error err)]) ∨
    (∃ p cur p2 fin, untilConsentCheck osArgs net = .ok (p, cur) ∧
      stringsContains cur.URL.Path (lit "/consent") = true ∧
      (main osArgs net).proc.calls = p.calls ++
        [(.PostForm
            (URL.String
              { Scheme := cur.URL.Scheme
                User := cur.URL.User
                Host := cur.URL.Host
                Path := lit "/consent" })
            (consentValues cur.URL), .ok fin)] ∧
      (main osArgs net).proc.read = [fin.Body] ∧
      main osArgs net = verifySuccess p2 fin) := by
  unfold main
  cases h : untilConsentCheck osArgs net with
  | error x =>
    obtain ⟨hc, hr, hcase⟩ := untilConsentCheck_error _ _ _ h
    rcases hcase with ⟨hlen, h1, h2⟩ | ⟨hlen, err, h1, h2⟩ | ⟨hlen, r1, err, hl, h1, h2, _⟩
    · exact Or.inl ⟨hlen, h1, hc, hr, h2⟩
    · exact Or.inr (Or.inl ⟨hlen, hc, hr, err, h1, h2⟩)
    · exact Or.inr (Or.inr (Or.inl ⟨hlen, hc, hr, r1, err, hl, h1, h2⟩))
  | ok v =>
    obtain ⟨p, cur⟩ := v
    obtain ⟨_, hread, _⟩ := untilConsentCheck_ok _ _ _ _ h
    simp only
    cases h2 : handleConsent net p cur with
    | error x =>
      obtain ⟨hc, hr, hyes, err, hcl, _⟩ := handleConsent_error _ _ _ _ h2
      exact Or.inr (Or.inr (Or.inr (Or.inr (Or.inl
        ⟨p, cur, rfl, hyes, hc, by rw [hr, hread], err, hcl⟩))))
    | ok w =>
      obtain ⟨p2, fin⟩ := w
      obtain ⟨hr, hcase⟩ := handleConsent_ok _ _ _ _ _ h2
      rcases hcase with ⟨hno, hpp, hfin⟩ | ⟨hyes, hcl, _⟩
      · subst hpp hfin
        refine Or.inr (Or.inr (Or.inr (Or.inl ⟨p2, fin, rfl, hno, ?_, ?_, rfl⟩)))
        · exact (verifySuccess_calls p2 fin).1
        · rw [(verifySuccess_calls p2 fin).2, hread]
          rfl
      · refine Or.inr (Or.inr (Or.inr (Or.inr (Or.inr
          ⟨p, cur, p2, fin, rfl, hyes, ?_, ?_, rfl⟩))))
        · rw [(verifySuccess_calls p2 fin).1, hcl]
        · rw [(verifySuccess_calls p2 fin).2, hr, hread]
          rfl


theorem main_requests_head (osArgs : List GoString) (net : Network) (h : 3 ≤ osArgs.length) :
    ∃ res rest, (main osArgs net).proc.calls = (.Get (startURL osArgs), res) :: rest := by
  rcases main_leaves osArgs net with ⟨hlen, _⟩ | ⟨_, _, _, err, hc, _⟩ |
    ⟨_, _, _, r1, err, _, hc, _⟩ | ⟨p, cur, hu, _, hc, _⟩ | ⟨p, cur, hu, _, _, _, err, hc⟩ |
    ⟨p, cur, p2, fin, hu, _, hc, _⟩
  · omega
  · exact ⟨_, _, hc⟩
  · exact ⟨_, _, hc⟩
  · rw [hc]
    rcases (untilConsentCheck_ok _ _ _ _ hu).2.2 with ⟨_, hp, _⟩ | ⟨r1, _, hp, _⟩ <;>
      exact ⟨_, _, hp⟩
  · rw [hc]
    rcases (untilConsentCheck_ok _ _ _ _ hu).2.2 with ⟨_, hp, _⟩ | ⟨r1, _, hp, _⟩ <;>
      rw [hp] <;> exact ⟨_, _, rfl⟩
  · rw [hc]
    rcases (untilConsentCheck_ok _ _ _ _ hu).2.2 with ⟨_, hp, _⟩ | ⟨r1, _, hp, _⟩ <;>
      rw [hp] <;> exact ⟨_, _, rfl⟩

/-- The calls of a run, in full: none (the usage error); the GET alone, failed or landed
off both paths; the GET and the login POST, failed or landed off `/consent`; the GET and the
consent POST; or all three. Each POST is made only on the path that triggers it and after
the call before it succeeded. -/
theorem main_calls_cases (osArgs : List GoString) (net : Network) :
    (osArgs.length < 3 ∧ (main osArgs net).proc.calls = []) ∨
    (∃ err, net [.Get (startURL osArgs)] = .error err ∧
      (main osArgs net).proc.calls = [(.Get (startURL osArgs), .error err)]) ∨
    (∃ r1, net [.Get (startURL osArgs)] = .ok r1 ∧
      stringsContains r1.URL.Path (lit "/login") = false ∧
      stringsContains r1.URL.Path (lit "/consent") = false ∧
      (main osArgs net).proc.calls = [(.Get (startURL osArgs), .ok r1)]) ∨
    (∃ r1 err, net [.Get (startURL osArgs)] = .ok r1 ∧
      stringsContains r1.URL.Path (lit "/login") = true ∧
      (main osArgs net).proc.calls = [(.Get (startURL osArgs), .ok r1),
        (.PostForm r1.URL.String (loginValues (osArgs.getD 1 []) (osArgs.getD 2 [])),
          .error err)]) ∨
    (∃ r1 r2, net [.Get (startURL osArgs)] = .ok r1 ∧
      stringsContains r1.URL.Path (lit "/login") = true ∧
      stringsContains r2.URL.Path (lit "/consent") = false ∧
      (main osArgs net).proc.calls = [(.Get (startURL osArgs), .ok r1),
        (.PostForm r1.URL.String (loginValues (osArgs.getD 1 []) (osArgs.getD 2 [])),
          .ok r2)]) ∨
    (∃ r1 res, net [.Get (startURL osArgs)] = .ok r1 ∧
      stringsContains r1.URL.Path (lit "/login") = false ∧
      stringsContains r1.URL.Path (lit "/consent") = true ∧
      (main osArgs net).proc.calls = [(.Get (startURL osArgs), .ok r1),
        (.PostForm
            (URL.String
              { Scheme := r1.URL.Scheme
                User := r1.URL.User
                Host := r1.URL.Host
                Path := lit "/consent" })
            (consentValues r1.URL), res)]) ∨
    (∃ r1 r2 res, net [.Get (startURL osArgs)] = .ok r1 ∧
      stringsContains r1.URL.Path (lit "/login") = true ∧
      stringsContains r2.URL.Path (lit "/consent") = true ∧
      (main osArgs net).proc.calls = [(.Get (startURL osArgs), .ok r1),
        (.PostForm r1.URL.String (loginValues (osArgs.getD 1 []) (osArgs.getD 2 [])), .ok r2),
        (.PostForm
            (URL.String
              { Scheme := r2.URL.Scheme
                User := r2.URL.User
                Host := r2.URL.Host
                Path := lit "/consent" })
            (consentValues r2.URL), res)]) := by
  rcases main_leaves osArgs net with ⟨hlen, hc, _⟩ | ⟨_, _, _, err, hc, hn⟩ |
    ⟨_, _, _, r1, err, hl, hc, hn⟩ | ⟨p, cur, hu, hno, hc, _⟩ |
    ⟨p, cur, hu, hyes, _, _, err, hc⟩ | ⟨p, cur, p2, fin, hu, hyes, hc, _⟩
  · exact Or.inl ⟨hlen, hc⟩
  · exact Or.inr (Or.inl ⟨err, hn, hc⟩)
  · exact Or.inr (Or.inr (Or.inr (Or.inl ⟨r1, err, hn, hl, hc⟩)))
  · rw [hc]
    rcases (untilConsentCheck_ok _ _ _ _ hu).2.2 with ⟨hnl, hp, hn⟩ | ⟨r1, hl, hp, hn, _⟩
    · exact Or.inr (Or.inr (Or.inl ⟨cur, hn, hnl, hno, hp⟩))
    · exact Or.inr (Or.inr (Or.inr (Or.inr (Or.inl ⟨r1, cur, hn, hl, hno, hp⟩))))
  · rw [hc]
    rcases (untilConsentCheck_ok _ _ _ _ hu).2.2 with ⟨hnl, hp, hn⟩ | ⟨r1, hl, hp, hn, _⟩
    · exact Or.inr (Or.inr (Or.inr (Or.inr (Or.inr (Or.inl
        ⟨cur, _, hn, hnl, hyes, by rw [hp]; rfl⟩)))))
    · exact Or.inr (Or.inr (Or.inr (Or.inr (Or.inr (Or.inr
        ⟨r1, cur, _, hn, hl, hyes, by rw [hp]; rfl⟩)))))
  · rw [hc]
    rcases (untilConsentCheck_ok _ _ _ _ hu).2.2 with ⟨hnl, hp, hn⟩ | ⟨r1, hl, hp, hn, _⟩
    · exact Or.inr (Or.inr (Or.inr (Or.inr (Or.inr (Or.inl
        ⟨cur, _, hn, hnl, hyes, by rw [hp]; rfl⟩)))))
    · exact Or.inr (Or.inr (Or.inr (Or.inr (Or.inr (Or.inr
        ⟨r1, cur, _, hn, hl, hyes, by rw [hp]; rfl⟩)))))

theorem isLoginPost_login (url email password : GoString) :
    (Request.PostForm url (loginValues email password)).isLoginPost = true := by
  have h1 : (lit "email" == lit "email") = true := by decide
  have h2 : (lit "password" == lit "email") = false := by decide
  have h3 : (lit "password" == lit "password") = true := by decide
  simp [Request.isLoginPost, loginValues, Values.lookup, List.lookup, h1, h2, h3]

theorem isConsentPost_login (url email password : GoString) :
    (Request.PostForm url (loginValues email password)).isConsentPost = false := by
  have h1 : (lit "consent" == lit "email") = false := by decide
  have h2 : (lit "consent" == lit "password") = false := by decide
  simp [Request.isConsentPost, loginValues, Values.lookup, List.lookup, h1, h2]

theorem isConsentPost_consent (url : GoString) (u : URL) :
    (Request.PostForm url (consentValues u)).isConsentPost = true := by
  have h := consentValues_lookup u (lit "consent")
  simp only [if_true] at h
  simp [Request.isConsentPost, h]

theorem isLoginPost_consent (url : GoString) (u : URL) :
    (Request.PostForm url (consentValues u)).isLoginPost = false := by
  have h := consentValues_lookup u (lit "consent")
  simp only [if_true] at h
  have hm := lookup_some_mem _ _ _ h
  have h1 : lit "consent" ≠ lit "email" := by decide
  have h2 : lit "consent" ≠ lit "password" := by decide
  simp only [Request.isLoginPost, Bool.and_eq_false_iff]
  refine Or.inl (Or.inl ?_)
  rw [← Bool.not_eq_true, List.all_eq_true]
  intro hall
  have := hall _ hm
  simp [h1, h2] at this

theorem sound_print (net : Network) (p : Proc) (msg : GoString) (h : p.Sound net) :
    (print p msg).Sound net := h

theorem sound_fatal (net : Network) (p : Proc) (msg : GoString) (h : p.Sound net) :
    (fatal p msg).proc.Sound net := h

theorem sound_clientDo (net : Network) (p : Proc) (req : Request) (h : p.Sound net) :
    (clientDo net p req).1.Sound net := by
  intro i r res hget
  simp only [clientDo, Proc.requests, List.map_append, List.map_cons, List.map_nil] at hget ⊢
  rw [List.get?_eq_getElem?] at hget
  rcases Nat.lt_trichotomy i p.calls.length with hlt | heq | hgt
  · rw [List.getElem?_append_left hlt] at hget
    have := h i r res (by rw [List.get?_eq_getElem?]; exact hget)
    rw [List.take_append_of_le_length (by simp; omega)]
    exact this
  · subst heq
    rw [List.getElem?_append_right (le_refl _)] at hget
    simp at hget
    obtain ⟨h1, h2⟩ := hget
    subst h1
    rw [List.take_append_of_le_length (by simp), List.take_of_length_le (by simp)]
    exact h2
  · rw [List.getElem?_eq_none (by simp; omega)] at hget
    simp at hget

/-- The log of calls of a run agrees with the network. -/
theorem main_sound (osArgs : List GoString) (net : Network) :
    (main osArgs net).proc.Sound net := by
  have h0 : ({} : Proc).Sound net := by
    intro i req res hget
    simp at hget
  have hinit : ∀ x, (initiate osArgs net = .error x → x.proc.Sound net) ∧
      ∀ e pw p r, initiate osArgs net = .ok (e, pw, p, r) → p.Sound net := by
    intro x
    unfold initiate
    split
    · constructor
      · intro hx
        simp only [Except.error.injEq] at hx
        subst hx
        exact sound_fatal _ _ _ h0
      · intro e pw p r hx
        simp at hx
    · have hs := sound_clientDo net
        (print {} (lit "1. Starting flow at " ++ startURL osArgs ++ lit "\n"))
        (.Get (startURL osArgs)) (sound_print _ _ _ h0)
      dsimp only
      split
      · rename_i p1 err heq
        rw [heq] at hs
        constructor
        · intro hx
          simp only [Except.error.injEq] at hx
          subst hx
          exact sound_fatal _ _ _ hs
        · intro e pw p r hx
          simp at hx
      · rename_i p1 r1 heq
        rw [heq] at hs
        constructor
        · intro hx
          simp at hx
        · intro e pw p r hx
          simp only [Except.ok.injEq, Prod.mk.injEq] at hx
          obtain ⟨_, _, h3, _⟩ := hx
          subst h3
          exact sound_print _ _ _ hs
  have hlogin : ∀ e pw p r, p.Sound net →
      (∀ x, handleLogin net e pw p r = .error x → x.proc.Sound net) ∧
      ∀ p2 r2, handleLogin net e pw p r = .ok (p2, r2) → p2.Sound net := by
    intro e pw p r hp
    unfold handleLogin
    split
    · have hs := sound_clientDo net
        (print p (lit "   - Detected Login Page. Posting credentials...\n"))
        (.PostForm r.URL.String (loginValues e pw)) (sound_print _ _ _ hp)
      dsimp only
      split
      · rename_i p1 err heq
        rw [heq] at hs
        constructor
        · intro x hx
          simp only [Except.error.injEq] at hx
          subst hx
          exact sound_fatal _ _ _ hs
        · intro p2 r2 hx
          simp at hx
      · rename_i p1 r1 heq
        rw [heq] at hs
        constructor
        · intro x hx
          simp at hx
        · intro p2 r2 hx
          simp only [Except.ok.injEq, Prod.mk.injEq] at hx
          obtain ⟨h3, _⟩ := hx
          subst h3
          exact sound_print _ _ _ hs
    · constructor
      · intro x hx
        simp at hx
      · intro p2 r2 hx
        simp only [Except.ok.injEq, Prod.mk.injEq] at hx
        obtain ⟨h3, _⟩ := hx
        subst h3
        exact hp
  have hconsent : ∀ p r, p.Sound net →
      (∀ x, handleConsent net p r = .error x → x.proc.Sound net) ∧
      ∀ p2 r2, handleConsent net p r = .ok (p2, r2) → p2.Sound net := by
    intro p r hp
    unfold handleConsent
    rw [parse_consent]
    split
    · have hs := sound_clientDo net
        (print p (lit "   - Detected Consent Page. Approving...\n"))
        (.PostForm
          (URL.String
            { Scheme := r.URL.Scheme
              User := r.URL.User
              Host := r.URL.Host
              Path := lit "/consent" })
          (consentValues r.URL)) (sound_print _ _ _ hp)
      dsimp only
      split
      · rename_i p1 err heq
        rw [heq] at hs
        constructor
        · intro x hx
          simp only [Except.error.injEq] at hx
          subst hx
          exact sound_fatal _ _ _ hs
        · intro p2 r2 hx
          simp at hx
      · rename_i p1 r1 heq
        rw [heq] at hs
        constructor
        · intro x hx
          simp at hx
        · intro p2 r2 hx
          simp only [Except.ok.injEq, Prod.mk.injEq] at hx
          obtain ⟨h3, _⟩ := hx
          subst h3
          exact sound_print _ _ _ hs
    · constructor
      · intro x hx
        simp at hx
      · intro p2 r2 hx
        simp only [Except.ok.injEq, Prod.mk.injEq] at hx
        obtain ⟨h3, _⟩ := hx
        subst h3
        exact hp
  have hverify : ∀ p r, p.Sound net → (verifySuccess p r).proc.Sound net := by
    intro p r hp i req res hget
    rw [(verifySuccess_calls p r).1] at hget
    rw [Proc.requests, (verifySuccess_calls p r).1]
    exact hp i req res hget
  unfold main untilConsentCheck
  cases h1 : initiate osArgs net with
  | error x => exact (hinit x).1 h1
  | ok v =>
    obtain ⟨e, pw, p, r⟩ := v
    have hp := (hinit (fatal {} [])).2 e pw p r h1
    dsimp only
    cases h2 : handleLogin net e pw p r with
    | error x => exact (hlogin e pw p r hp).1 x h2
    | ok w =>
      obtain ⟨p2, r2⟩ := w
      have hp2 := (hlogin e pw p r hp).2 p2 r2 h2
      dsimp only
      cases h3 : handleConsent net p2 r2 with
      | error x => exact (hconsent p2 r2 hp2).1 x h3
      | ok w2 =>
        obtain ⟨p3, r3⟩ := w2
        exact hverify p3 r3 ((hconsent p2 r2 hp2).2 p3 r3 h3)

/-- C5: a run issues at most three requests, at most one of them a GET and at most two of
them POSTs; the first request, when there is one, is the GET, and every later one is a
POST. The run is a total function, so it ends in every case. -/
theorem C5_request_bound (osArgs : List GoString) (net : Network) :
    (main osArgs net).proc.requests.length ≤ 3 ∧
    ((main osArgs net).proc.requests.filter Request.isGet).length ≤ 1 ∧
    ((main osArgs net).proc.requests.filter Request.isPost).length ≤ 2 ∧
    (∀ r, (main osArgs net).proc.requests.head? = some r → r.isGet = true) ∧
    (∀ r ∈ (main osArgs net).proc.requests.tail, r.isPost = true) := by
  rcases main_calls_cases osArgs net with ⟨_, hc⟩ | ⟨err, _, hc⟩ | ⟨r1, _, _, _, hc⟩ |
    ⟨r1, err, _, _, hc⟩ | ⟨r1, r2, _, _, _, hc⟩ | ⟨r1, res, _, _, _, hc⟩ |
    ⟨r1, r2, res, _, _, _, hc⟩ <;>
    simp [Proc.requests, hc, Request.isGet, Request.isPost]

theorem C5_request_bound_witness :
    (main [lit "login-bot", lit "a@b.c", lit "pw"] (scenarioB (lit "ok"))).proc.requests =
      [.Get (lit "http://localhost:8082/login"),
        .PostForm (lit "http://localhost:8082/login?return_to=/app")
          [(lit "email", [lit "a@b.c"]), (lit "password", [lit "pw"])],
        .PostForm (lit "http://localhost:8082/consent")
          [(lit "client_id", [lit "abc"]), (lit "return_to", [lit "/app"]),
            (lit "consent", [lit "approve"])]] ∧
    (main [lit "login-bot", lit "a@b.c", lit "pw"]
      (scenarioB (lit "ok"))).proc.requests.length ≤ 3 :=
  ⟨by decide,
    (C5_request_bound [lit "login-bot", lit "a@b.c", lit "pw"] (scenarioB (lit "ok"))).1⟩

/-- C9: with fewer than two arguments after the program name the run prints the usage
message, exits with status 1 and issues no request; with exactly two the first request is
the GET of `http://localhost:8082/login`; with three or more it is the GET of the third. -/
theorem C9_usage_and_start_url (osArgs : List GoString) (net : Network) :
    (osArgs.length < 3 →
      (main osArgs net).proc.stdout =
          lit "ERROR: Usage: login-bot <email> <password> [start_url]\n" ∧
        (main osArgs net).code = 1 ∧ (main osArgs net).proc.requests = []) ∧
    (osArgs.length = 3 →
      (main osArgs net).proc.requests.head? =
        some (.Get (lit "http://localhost:8082/login"))) ∧
    (3 < osArgs.length →
      (main osArgs net).proc.requests.head? = some (.Get (osArgs.getD 3 []))) := by
  refine ⟨?_, ?_, ?_⟩
  · intro hlen
    rcases main_leaves osArgs net with ⟨_, hc, hcode, _, hout⟩ | ⟨h, _⟩ | ⟨h, _⟩ |
      ⟨p, cur, hu, _⟩ | ⟨p, cur, hu, _⟩ | ⟨p, cur, p2, fin, hu, _⟩
    · exact ⟨hout, hcode, by rw [Proc.requests, hc]; rfl⟩
    · omega
    · omega
    · have := (untilConsentCheck_ok _ _ _ _ hu).1
      omega
    · have := (untilConsentCheck_ok _ _ _ _ hu).1
      omega
    · have := (untilConsentCheck_ok _ _ _ _ hu).1
      omega
  · intro hlen
    obtain ⟨res, rest, hc⟩ := main_requests_head osArgs net (by omega)
    rw [Proc.requests, hc]
    simp [startURL, hlen]
  · intro hlen
    obtain ⟨res, rest, hc⟩ := main_requests_head osArgs net (by omega)
    rw [Proc.requests, hc]
    simp [startURL, hlen]

theorem C9_usage_and_start_url_witness :
    ((main [lit "login-bot", lit "a@b.c"] timeoutNet).proc.stdout =
          lit "ERROR: Usage: login-bot <email> <password> [start_url]\n" ∧
        (main [lit "login-bot", lit "a@b.c"] timeoutNet).code = 1 ∧
        (main [lit "login-bot", lit "a@b.c"] timeoutNet).proc.requests = []) ∧
    (main [lit "login-bot", lit "a@b.c", lit "pw"] timeoutNet).proc.requests.head? =
        some (.Get (lit "http://localhost:8082/login")) ∧
    (main [lit "login-bot", lit "a@b.c", lit "pw", lit "http://rp/"] timeoutNet).proc.requests.head?
        = some (.Get (lit "http://rp/")) :=
  ⟨(C9_usage_and_start_url [lit "login-bot", lit "a@b.c"] timeoutNet).1 (by decide),
    (C9_usage_and_start_url [lit "login-bot", lit "a@b.c", lit "pw"] timeoutNet).2.1
      (by decide),
    (C9_usage_and_start_url [lit "login-bot", lit "a@b.c", lit "pw", lit "http://rp/"]
      timeoutNet).2.2 (by decide)⟩


/-- C8: when a request of a run (the GET, the login POST or the consent POST) fails at
transport level, that is when the network answers it with an error, the run exits with
status 1, the failed request is the last one issued, and no body is read; the number of
POSTs issued is the position of the failed request, so a failed GET comes with no POST at
all. -/
theorem C8_transport_error_is_fatal (osArgs : List GoString) (net : Network) (i : Nat)
    (req : Request) (err : GoString)
    (h : (main osArgs net).proc.calls.get? i = some (req, .error err)) :
    net ((main osArgs net).proc.requests.take i ++ [req]) = .error err ∧
    (main osArgs net).code = 1 ∧
    (main osArgs net).proc.calls.length = i + 1 ∧
    (main osArgs net).proc.read = [] ∧
    ((main osArgs net).proc.requests.filter Request.isPost).length = i := by
  refine ⟨main_sound osArgs net i req (.error err) h, ?_⟩
  rcases main_leaves osArgs net with ⟨_, hc, _⟩ | ⟨_, hcode, hread, e, hc, _⟩ |
    ⟨_, hcode, hread, r1, e, hl, hc, _⟩ | ⟨p, cur, hu, _, hc, _⟩ |
    ⟨p, cur, hu, hyes, hcode, hread, e, hc⟩ | ⟨p, cur, p2, fin, hu, hyes, hc, _⟩
  · rw [hc] at h
    simp at h
  · rw [hc] at h
    rcases i with _ | i
    · simp [hc, hcode, hread, Proc.requests, Request.isPost]
    · simp at h
  · rw [hc] at h
    rcases i with _ | _ | i
    · simp at h
    · simp [hc, hcode, hread, Proc.requests, Request.isPost]
    · simp at h
  · rw [hc] at h
    rcases (untilConsentCheck_ok _ _ _ _ hu).2.2 with ⟨_, hp, _⟩ | ⟨r1, _, hp, _⟩ <;>
      rw [hp] at h <;> rcases i with _ | _ | i <;> simp at h
  · rw [hc] at h
    rcases (untilConsentCheck_ok _ _ _ _ hu).2.2 with ⟨_, hp, _⟩ | ⟨r1, _, hp, _⟩ <;>
      rw [hp] at h hc <;> rcases i with _ | _ | _ | i <;> simp at h <;>
      simp [hc, hcode, hread, Proc.requests, Request.isPost]
  · rw [hc] at h
    rcases (untilConsentCheck_ok _ _ _ _ hu).2.2 with ⟨_, hp, _⟩ | ⟨r1, _, hp, _⟩ <;>
      rw [hp] at h <;> rcases i with _ | _ | _ | i <;> simp at h

theorem C8_transport_error_is_fatal_witness :
    timeoutNet ((main [lit "login-bot", lit "a@b.c", lit "pw"] timeoutNet).proc.requests.take 0
      ++ [.Get (lit "http://localhost:8082/login")]) = .error (lit "context deadline exceeded") ∧
    (main [lit "login-bot", lit "a@b.c", lit "pw"] timeoutNet).code = 1 ∧
    (main [lit "login-bot", lit "a@b.c", lit "pw"] timeoutNet).proc.calls.length = 0 + 1 ∧
    (main [lit "login-bot", lit "a@b.c", lit "pw"] timeoutNet).proc.read = [] ∧
    ((main [lit "login-bot", lit "a@b.c", lit "pw"] timeoutNet).proc.requests.filter
      Request.isPost).length = 0 :=
  C8_transport_error_is_fatal [lit "login-bot", lit "a@b.c", lit "pw"] timeoutNet 0
    (.Get (lit "http://localhost:8082/login")) (lit "context deadline exceeded") rfl

/-- The response of the last call of a run that reaches the verification is the one whose
body is verified. -/
theorem main_last_ok (osArgs : List GoString) (net : Network) (req : Request)
    (fin : Response) (h : (main osArgs net).proc.calls.getLast? = some (req, .ok fin)) :
    ∃ p, main osArgs net = verifySuccess p fin ∧ p.read = [] := by
  rcases main_leaves osArgs net with ⟨_, hc, _⟩ | ⟨_, hcode, hread, e, hc, _⟩ |
    ⟨_, hcode, hread, r1, e, hl, hc, _⟩ | ⟨p, cur, hu, _, hc, _, hm⟩ |
    ⟨p, cur, hu, hyes, hcode, hread, e, hc⟩ | ⟨p, cur, p2, fin2, hu, hyes, hc, hr, hm⟩
  · rw [hc] at h
    simp at h
  · rw [hc] at h
    simp at h
  · rw [hc] at h
    simp at h
  · rw [hc] at h
    obtain ⟨_, hread, hcase⟩ := untilConsentCheck_ok _ _ _ _ hu
    rcases hcase with ⟨_, hp, _⟩ | ⟨r1, _, hp, _⟩ <;> rw [hp] at h <;> simp at h <;>
      obtain ⟨_, h2⟩ := h <;> subst h2 <;> exact ⟨p, hm, hread⟩
  · rw [hc] at h
    simp at h
  · rw [hc] at h
    simp at h
    obtain ⟨_, h2⟩ := h
    subst h2
    refine ⟨p2, hm, ?_⟩
    have := (verifySuccess_calls p2 fin2).2
    rw [← hm, hr] at this
    cases hp2 : p2.read with
    | nil => rfl
    | cons a l => rw [hp2] at this; simp at this

/-- C6: when the last request of a run succeeded and the body of its response has
`Login Successful` somewhere in it, the run prints the success line and exits with
status 0, whatever the URL, the rest of the body and the steps taken. -/
theorem C6_success_exit (osArgs : List GoString) (net : Network) (req : Request)
    (fin : Response) (pre post : GoString)
    (hlast : (main osArgs net).proc.calls.getLast? = some (req, .ok fin))
    (hbody : fin.Body = pre ++ lit "Login Successful" ++ post) :
    (main osArgs net).code = 0 ∧
    (main osArgs net).proc.read = [fin.Body] ∧
    ∃ out, (main osArgs net).proc.stdout =
      out ++ lit "=== SUCCESS: OIDC Flow Completed ===\n" := by
  obtain ⟨p, hm, hr⟩ := main_last_ok osArgs net req fin hlast
  have hc : stringsContains fin.Body (lit "Login Successful") = true := by
    rw [hbody]
    exact stringsContains_append _ _ _
  rw [hm]
  refine ⟨(verifySuccess_marker p fin hc).1, ?_, p.stdout, (verifySuccess_marker p fin hc).2⟩
  rw [(verifySuccess_calls p fin).2, hr]
  rfl

theorem C6_success_exit_witness :
    (main [lit "login-bot", lit "a@b.c", lit "pw"]
        (scenarioB (lit "<h1>Login Successful!</h1>"))).code = 0 ∧
    (main [lit "login-bot", lit "a@b.c", lit "pw"]
        (scenarioB (lit "<h1>Login Successful!</h1>"))).proc.read =
      [lit "<h1>Login Successful!</h1>"] ∧
    ∃ out, (main [lit "login-bot", lit "a@b.c", lit "pw"]
        (scenarioB (lit "<h1>Login Successful!</h1>"))).proc.stdout =
      out ++ lit "=== SUCCESS: OIDC Flow Completed ===\n" :=
  C6_success_exit [lit "login-bot", lit "a@b.c", lit "pw"]
    (scenarioB (lit "<h1>Login Successful!</h1>"))
    (.PostForm (lit "http://localhost:8082/consent")
      [(lit "client_id", [lit "abc"]), (lit "return_to", [lit "/app"]),
        (lit "consent", [lit "approve"])])
    { URL := localURL (lit "/callback") (lit "code=xyz"),
      Body := lit "<h1>Login Successful!</h1>" }
    (lit "<h1>") (lit "!</h1>") rfl (by decide)


/-- C7, as the program has it: when the last request of a run succeeded and the body of its
response does not have `Login Successful` in it, the run exits with status 1 and ends its
output with the URL and the first 500 bytes of the body, the whole body when it has at
most 500 bytes. The slice never panics, the preview is a prefix of the body and is at
most 500 bytes long. -/
theorem C7_failure_preview (osArgs : List GoString) (net : Network) (req : Request)
    (fin : Response)
    (hlast : (main osArgs net).proc.calls.getLast? = some (req, .ok fin))
    (hbody : ¬ lit "Login Successful" <:+: fin.Body) :
    (main osArgs net).code = 1 ∧
    (∃ out, (main osArgs net).proc.stdout =
      out ++ (lit "FAILURE: Did not see success message.\nURL: " ++ fin.URL.String ++
        lit "\nBody Preview:\n" ++ fin.Body.take 500 ++ lit "\n")) ∧
    sliceTo fin.Body (min fin.Body.length 500) = some (fin.Body.take 500) ∧
    fin.Body.take 500 <+: fin.Body ∧
    (fin.Body.take 500).length ≤ 500 ∧
    (fin.Body.length ≤ 500 → fin.Body.take 500 = fin.Body) := by
  obtain ⟨p, hm, hr⟩ := main_last_ok osArgs net req fin hlast
  have hc : stringsContains fin.Body (lit "Login Successful") = false := by
    rw [← Bool.not_eq_true, stringsContains_iff]
    exact hbody
  rw [hm]
  refine ⟨(verifySuccess_no_marker p fin hc).1, ⟨p.stdout, (verifySuccess_no_marker p fin hc).2⟩,
    sliceTo_min _, List.take_prefix _ _, ?_, fun h => List.take_of_length_le h⟩
  rw [List.length_take]
  exact Nat.min_le_left _ _

theorem C7_failure_preview_witness :
    (main [lit "login-bot", lit "a@b.c", lit "pw"] (scenarioB (lit "Access Denied"))).code = 1 ∧
    (∃ out, (main [lit "login-bot", lit "a@b.c", lit "pw"]
        (scenarioB (lit "Access Denied"))).proc.stdout =
      out ++ (lit "FAILURE: Did not see success message.\nURL: " ++
        (localURL (lit "/callback") (lit "code=xyz")).String ++
        lit "\nBody Preview:\n" ++ (lit "Access Denied").take 500 ++ lit "\n")) ∧
    sliceTo (lit "Access Denied") (min (lit "Access Denied").length 500) =
      some ((lit "Access Denied").take 500) ∧
    (lit "Access Denied").take 500 <+: lit "Access Denied" ∧
    ((lit "Access Denied").take 500).length ≤ 500 ∧
    ((lit "Access Denied").length ≤ 500 → (lit "Access Denied").take 500 = lit "Access Denied") :=
  C7_failure_preview [lit "login-bot", lit "a@b.c", lit "pw"] (scenarioB (lit "Access Denied"))
    (.PostForm (lit "http://localhost:8082/consent")
      [(lit "client_id", [lit "abc"]), (lit "return_to", [lit "/app"]),
        (lit "consent", [lit "approve"])])
    { URL := localURL (lit "/callback") (lit "code=xyz"), Body := lit "Access Denied" }
    rfl (by decide)

theorem lit_accented : lit accented = (List.replicate 300 [0xC3, 0xA9]).flatten := by
  have h : String.utf8EncodeChar 'é' = [0xC3, 0xA9] := by decide
  unfold lit accented
  simp only [List.flatMap, List.map_replicate, h]

/-- C7 as stated fails: a body of 300 characters, each of two bytes, has fewer than 500
characters and no success marker, yet the preview the run prints is not the whole body:
it is the first 500 bytes, which are 250 of the characters. -/
theorem C7_counterexample :
    accented.length < 500 ∧
    ¬ lit "Login Successful" <:+: lit accented ∧
    (main [lit "login-bot", lit "a@b.c", lit "pw"]
        (constNet { URL := localURL (lit "/home") [], Body := lit accented })).code = 1 ∧
    (main [lit "login-bot", lit "a@b.c", lit "pw"]
        (constNet { URL := localURL (lit "/home") [], Body := lit accented })).proc.stdout =
      lit "1. Starting flow at http://localhost:8082/login\n" ++
        lit "2. Landed at http://localhost:8082/home\n" ++
        lit "FAILURE: Did not see success message.\nURL: http://localhost:8082/home\n" ++
        lit "Body Preview:\n" ++ (lit accented).take 500 ++ lit "\n" ∧
    ((lit accented).take 500).length = 500 ∧
    (lit accented).length = 600 ∧
    (lit accented).take 500 ≠ lit accented := by
  have hlen : (lit accented).length = 600 := by
    rw [lit_accented, List.length_flatten, List.map_replicate, List.sum_replicate]
    rfl
  have hmem : ∀ x ∈ lit accented, x = 0xC3 ∨ x = 0xA9 := by
    intro x hx
    rw [lit_accented, List.mem_flatten] at hx
    obtain ⟨l, hl, hxl⟩ := hx
    rw [List.eq_of_mem_replicate hl] at hxl
    simpa using hxl
  have hno : ¬ lit "Login Successful" <:+: lit accented := by
    intro hinf
    have h76 : (76 : UInt8) ∈ lit "Login Successful" := by decide
    rcases hmem 76 (hinf.subset h76) with h | h <;> exact absurd h (by decide)
  have hc : stringsContains (lit accented) (lit "Login Successful") = false := by
    rw [← Bool.not_eq_true, stringsContains_iff]
    exact hno
  have hrun : ∀ body : GoString,
      main [lit "login-bot", lit "a@b.c", lit "pw"]
          (constNet { URL := localURL (lit "/home") [], Body := body }) =
        verifySuccess
          { calls := [(.Get (lit "http://localhost:8082/login"),
              .ok { URL := localURL (lit "/home") [], Body := body })]
            stdout := lit "1. Starting flow at http://localhost:8082/login\n" ++
              lit "2. Landed at http://localhost:8082/home\n"
            read := [] }
          { URL := localURL (lit "/home") [], Body := body } := by
    intro body
    rfl
  have hurl : (localURL (lit "/home") []).String = lit "http://localhost:8082/home" := by
    decide
  have hv := verifySuccess_no_marker
    { calls := [(.Get (lit "http://localhost:8082/login"),
        .ok { URL := localURL (lit "/home") [], Body := lit accented })]
      stdout := lit "1. Starting flow at http://localhost:8082/login\n" ++
        lit "2. Landed at http://localhost:8082/home\n"
      read := [] }
    { URL := localURL (lit "/home") [], Body := lit accented } hc
  have hchars : accented.length < 500 := by
    show (List.replicate 300 'é').length < 500
    rw [List.length_replicate]
    omega
  have htake : ((lit accented).take 500).length = 500 := by
    rw [List.length_take, hlen]
    rfl
  have hne : (lit accented).take 500 ≠ lit accented := by
    intro heq
    rw [heq, hlen] at htake
    exact absurd htake (by decide)
  refine ⟨hchars, hno, ?_, ?_, htake, hlen, hne⟩
  · rw [hrun]
    exact hv.1
  · rw [hrun, hv.2, hurl]
    have e : lit "FAILURE: Did not see success message.\nURL: http://localhost:8082/home\n" =
        lit "FAILURE: Did not see success message.\nURL: " ++
          lit "http://localhost:8082/home" ++ lit "\n" := by decide
    have e2 : lit "\nBody Preview:\n" = lit "\n" ++ lit "Body Preview:\n" := by decide
    rw [e, e2]
    simp only [List.append_assoc]


theorem URL.String_query (u : URL) :
    ∃ front, u.String = front ++
      (if u.ForceQuery = true ∨ u.RawQuery ≠ [] then lit "?" ++ u.RawQuery else []) ++
      (if u.Fragment ≠ [] then lit "#" ++ u.EscapedFragment else []) := by
  unfold URL.String
  dsimp only
  generalize (if u.Opaque ≠ [] then _ else _ : GoString) = b2
  refine ⟨b2, ?_⟩
  split_ifs <;> simp only [List.append_assoc, List.append_nil]

/-- C1: when the GET of the start URL succeeds and lands on a URL whose path contains
`/login`, the second request of the run is the POST of the form `email`, `password` (the
supplied values, one each, and no other field) to the string of that URL, which holds the
query of the URL; no other request of the run is a login POST. -/
theorem C1_login_post (prog email password : GoString) (more : List GoString)
    (net : Network) (resp : Response)
    (hget : net [.Get (startURL (prog :: email :: password :: more))] = .ok resp)
    (hpath : stringsContains resp.URL.Path (lit "/login") = true) :
    (∃ rest, (main (prog :: email :: password :: more) net).proc.requests =
        .Get (startURL (prog :: email :: password :: more)) ::
          .PostForm resp.URL.String (loginValues email password) :: rest ∧
        ∀ r ∈ rest, r.isLoginPost = false) ∧
    ((main (prog :: email :: password :: more) net).proc.requests.filter
      Request.isLoginPost).length = 1 ∧
    (loginValues email password).lookup (lit "email") = some [email] ∧
    (loginValues email password).lookup (lit "password") = some [password] ∧
    (∀ key, key ≠ lit "email" → key ≠ lit "password" →
      (loginValues email password).lookup key = none) ∧
    ∃ front, resp.URL.String = front ++
      (if resp.URL.ForceQuery = true ∨ resp.URL.RawQuery ≠ [] then
        lit "?" ++ resp.URL.RawQuery else []) ++
      (if resp.URL.Fragment ≠ [] then lit "#" ++ resp.URL.EscapedFragment else []) := by
  have hfields : (loginValues email password).lookup (lit "email") = some [email] ∧
      (loginValues email password).lookup (lit "password") = some [password] ∧
      (∀ key, key ≠ lit "email" → key ≠ lit "password" →
        (loginValues email password).lookup key = none) := by
    have h2 : (lit "password" == lit "email") = false := by decide
    refine ⟨by simp [loginValues, Values.lookup, List.lookup],
      by simp [loginValues, Values.lookup, List.lookup, h2], ?_⟩
    intro key h1 h3
    simp [loginValues, Values.lookup, List.lookup, beq_false_of_ne h1, beq_false_of_ne h3]
  have hlog := isLoginPost_login
  have hcon := isLoginPost_consent
  have hget0 : ∀ url, (Request.Get url).isLoginPost = false := fun _ => rfl
  have key := main_calls_cases (prog :: email :: password :: more) net
  simp only [List.getD_cons_succ, List.getD_cons_zero, List.length_cons, hget,
    Except.ok.injEq, exists_false, false_and, reduceCtorEq] at key
  have hlen : ¬ (more.length + 1 + 1 + 1 < 3) := by omega
  simp only [hlen, false_and, false_or] at key
  refine ⟨?_, ?_, hfields.1, hfields.2.1, hfields.2.2, URL.String_query _⟩
  · rcases key with ⟨r1, hn, hnl, _, _⟩ | ⟨r1, err, hn, _, hc⟩ |
      ⟨r1, r2, hn, _, _, hc⟩ | ⟨r1, res, hn, hnl, _, _⟩ | ⟨r1, r2, res, hn, _, _, hc⟩
    · subst hn
      rw [hpath] at hnl
      simp at hnl
    · subst hn
      exact ⟨[], by rw [Proc.requests, hc]; rfl, by simp⟩
    · subst hn
      exact ⟨[], by rw [Proc.requests, hc]; rfl, by simp⟩
    · subst hn
      rw [hpath] at hnl
      simp at hnl
    · subst hn
      refine ⟨_, by rw [Proc.requests, hc]; rfl, ?_⟩
      intro r hr
      rw [List.mem_singleton.mp hr]
      exact hcon _ _
  · rcases key with ⟨r1, hn, hnl, _, _⟩ | ⟨r1, err, hn, _, hc⟩ |
      ⟨r1, r2, hn, _, _, hc⟩ | ⟨r1, res, hn, hnl, _, _⟩ | ⟨r1, r2, res, hn, _, _, hc⟩
    · subst hn
      rw [hpath] at hnl
      simp at hnl
    · rw [Proc.requests, hc]
      simp [List.filter, hlog, hget0]
    · rw [Proc.requests, hc]
      simp [List.filter, hlog, hget0]
    · subst hn
      rw [hpath] at hnl
      simp at hnl
    · rw [Proc.requests, hc]
      simp [List.filter, hlog, hcon, hget0]


/-- After a consent check on a path containing `/consent`, the run makes one more request,
the consent POST, and no other. -/
theorem main_after_check (osArgs : List GoString) (net : Network) (p : Proc)
    (cur : Response) (hcheck : untilConsentCheck osArgs net = .ok (p, cur))
    (hpath : stringsContains cur.URL.Path (lit "/consent") = true) :
    (main osArgs net).proc.requests = p.requests ++
      [.PostForm
        (URL.String
          { Scheme := cur.URL.Scheme
            User := cur.URL.User
            Host := cur.URL.Host
            Path := lit "/consent" })
        (consentValues cur.URL)] ∧
    ∃ res, (main osArgs net).proc.calls = p.calls ++
      [(.PostForm
        (URL.String
          { Scheme := cur.URL.Scheme
            User := cur.URL.User
            Host := cur.URL.Host
            Path := lit "/consent" })
        (consentValues cur.URL), res)] := by
  have hcalls : ∃ res, (main osArgs net).proc.calls = p.calls ++
      [(.PostForm
        (URL.String
          { Scheme := cur.URL.Scheme
            User := cur.URL.User
            Host := cur.URL.Host
            Path := lit "/consent" })
        (consentValues cur.URL), res)] := by
    rw [main, hcheck]
    simp only
    cases h2 : handleConsent net p cur with
    | error x =>
      obtain ⟨_, _, _, e2, hcl, _⟩ := handleConsent_error _ _ _ _ h2
      exact ⟨_, hcl⟩
    | ok w =>
      obtain ⟨p3, fin⟩ := w
      obtain ⟨_, hcase⟩ := handleConsent_ok _ _ _ _ _ h2
      rcases hcase with ⟨hno, _⟩ | ⟨_, hcl, _⟩
      · rw [hpath] at hno
        simp at hno
      · exact ⟨_, by rw [(verifySuccess_calls p3 fin).1, hcl]⟩
  obtain ⟨res, hc⟩ := hcalls
  exact ⟨by rw [Proc.requests, hc, List.map_append]; rfl, res, hc⟩

theorem C1_login_post_witness :
    scenarioB (lit "ok") [.Get (startURL [lit "login-bot", lit "a@b.c", lit "pw"])] =
        .ok { URL := localURL (lit "/login") (lit "return_to=/app"), Body := lit "<form>" } ∧
    stringsContains (localURL (lit "/login") (lit "return_to=/app")).Path (lit "/login") = true ∧
    (localURL (lit "/login") (lit "return_to=/app")).String =
        lit "http://localhost:8082/login?return_to=/app" ∧
    ((main [lit "login-bot", lit "a@b.c", lit "pw"] (scenarioB (lit "ok"))).proc.requests.filter
      Request.isLoginPost).length = 1 :=
  ⟨rfl, by decide, by decide,
    (C1_login_post (lit "login-bot") (lit "a@b.c") (lit "pw") [] (scenarioB (lit "ok"))
      { URL := localURL (lit "/login") (lit "return_to=/app"), Body := lit "<form>" }
      rfl (by decide)).2.1⟩

/-- At a consent check on a path containing `/consent` the next and last request is a POST
whose form is `consentValues` of the current URL: `consent` has the one value `approve`
and every other key has what `URL.Query` gives it. -/
theorem consent_post_form (osArgs : List GoString) (net : Network) (p : Proc)
    (cur : Response) (hcheck : untilConsentCheck osArgs net = .ok (p, cur))
    (hpath : stringsContains cur.URL.Path (lit "/consent") = true) :
    (∃ target, (main osArgs net).proc.requests =
      p.requests ++ [.PostForm target (consentValues cur.URL)]) ∧
    (∃ req, p.calls.getLast? = some (req, .ok cur)) ∧
    (∀ r ∈ p.requests, r.isConsentPost = false) ∧
    (consentValues cur.URL).lookup (lit "consent") = some [lit "approve"] ∧
    (∀ key, key ≠ lit "consent" →
      (consentValues cur.URL).lookup key = cur.URL.Query.lookup key) := by
  refine ⟨?_, ?_, ?_, ?_, ?_⟩
  · exact ⟨_, (main_after_check osArgs net p cur hcheck hpath).1⟩
  · rcases (untilConsentCheck_ok _ _ _ _ hcheck).2.2 with ⟨_, hp, _⟩ | ⟨r1, _, hp, _⟩ <;>
      rw [hp] <;> exact ⟨_, rfl⟩
  · intro r hr
    rcases (untilConsentCheck_ok _ _ _ _ hcheck).2.2 with ⟨_, hp, _⟩ | ⟨r1, _, hp, _⟩ <;>
      rw [Proc.requests, hp] at hr <;> simp at hr
    · rw [hr]
      rfl
    · rcases hr with hr | hr <;> rw [hr]
      · rfl
      · exact isConsentPost_login _ _ _
  · rw [consentValues_lookup]
    simp
  · intro key hkey
    rw [consentValues_lookup]
    simp [hkey]

theorem parseQueryPiece_eq (m : Values) (piece : GoString) :
    parseQueryPiece m piece =
      match queryPiece piece with
      | none => m
      | some (key, value) => m.Add key value := by
  unfold parseQueryPiece queryPiece
  split
  · rfl
  · split
    · rfl
    · split
      rename_i k v b heq
      cases h1 : unescape .encodeQueryComponent k with
      | none => simp
      | some k1 =>
        cases h2 : unescape .encodeQueryComponent v with
        | none => simp
        | some v1 => simp

theorem lookup_Add (m : Values) (key value key2 : GoString) :
    (m.Add key value).lookup key2 =
      if key2 = key then some (m.index key ++ [value]) else m.lookup key2 := by
  unfold Values.Add
  exact Values.lookup_assign _ _ _ _

theorem lookup_foldl_pieces (pieces : List GoString) (m : Values) (key : GoString) :
    (pieces.foldl parseQueryPiece m).lookup key =
      if (pieces.filterMap queryPiece).filterMap
          (fun e => if e.1 = key then some e.2 else none) = [] then m.lookup key
      else some (m.index key ++ (pieces.filterMap queryPiece).filterMap
          (fun e => if e.1 = key then some e.2 else none)) := by
  induction pieces generalizing m with
  | nil => simp
  | cons piece rest ih =>
    rw [List.foldl_cons, ih, parseQueryPiece_eq]
    cases hq : queryPiece piece with
    | none =>
      have e : List.filterMap queryPiece (piece :: rest) = List.filterMap queryPiece rest := by
        rw [List.filterMap_cons, hq]
      rw [e]
    | some kv =>
      obtain ⟨k, v⟩ := kv
      have e : List.filterMap queryPiece (piece :: rest) =
          (k, v) :: List.filterMap queryPiece rest := by
        rw [List.filterMap_cons, hq]
      rw [e, List.filterMap_cons]
      generalize List.filterMap (fun e : GoString × GoString =>
        if e.1 = key then some e.2 else none) (List.filterMap queryPiece rest) = vsr
      simp only [lookup_Add, Values.index]
      by_cases hk : k = key
      · subst hk
        simp only [if_true, Option.getD_some]
        by_cases hv : vsr = []
        · subst hv
          simp
        · simp [hv]
      · have hk2 : ¬ key = k := fun h => hk h.symm
        simp only [hk, hk2, if_false]

/-- The map that `URL.Query` returns for a query within the parameter limit: a key has the
values of the pieces that decode to it, in the order of the pieces, and no entry when no
piece decodes to it. Pieces that do not decode (a semicolon, a malformed escape, the empty
piece) leave no trace. -/
theorem query_lookup (u : URL) (key : GoString)
    (h : stringsCount u.RawQuery (ch '&') + 1 ≤ 10000) :
    u.Query.lookup key =
      if ((stringsSplit (ch '&') u.RawQuery).filterMap queryPiece).filterMap
          (fun e => if e.1 = key then some e.2 else none) = [] then none
      else some (((stringsSplit (ch '&') u.RawQuery).filterMap queryPiece).filterMap
          (fun e => if e.1 = key then some e.2 else none)) := by
  unfold URL.Query
  have hw : urlParamsWithinMax (stringsCount u.RawQuery (ch '&') + 1) = true := by
    simp [urlParamsWithinMax, h]
  rw [if_pos hw, lookup_foldl_pieces]
  simp [Values.lookup, Values.index, List.lookup]

/-- Beyond the parameter limit `URL.Query` returns the empty map. -/
theorem query_over_limit (u : URL) (h : 10000 < stringsCount u.RawQuery (ch '&') + 1) :
    u.Query = [] := by
  unfold URL.Query
  have hw : urlParamsWithinMax (stringsCount u.RawQuery (ch '&') + 1) = false := by
    simp [urlParamsWithinMax]
    omega
  rw [hw]
  rfl

/-- A query of `a=1` and 10000 times `&` is beyond the limit: its map is empty and the
consent form is `consent=approve` alone. -/
theorem query_over_limit_example :
    consentValues { RawQuery := lit "a=1" ++ List.replicate 10000 (ch '&') } =
      [(lit "consent", [lit "approve"])] := by
  have hc : stringsCount (lit "a=1" ++ List.replicate 10000 (ch '&')) (ch '&') = 10000 := by
    unfold stringsCount
    rw [List.count_append, List.count_replicate_self]
    have : List.count (ch '&') (lit "a=1") = 0 := by decide
    rw [this]
  unfold consentValues
  rw [query_over_limit _ (by rw [hc]; omega)]
  rfl

/-- Escapes are decoded in keys and values: `n%61me=A+b%21` is the field `name` with the
value `A b!`. -/
theorem query_unescape_example :
    URL.Query { RawQuery := lit "n%61me=A+b%21&x=%zz&n%61me=2" } =
      [(lit "name", [lit "A b!", lit "2"])] := by
  decide

/-- C2, at an input where the program does not do what the claim and the comment of line 89
say: the GET lands on `http://localhost:8082/consent?client_id=abc&return_to=%2Fapp&state=x;y`,
and the consent POST carries `client_id=abc`, `return_to=/app` and `consent=approve` only.
The parameter `state` of the query is not in the form: `Query()` drops the error of
`ParseQuery` and with it the piece `state=x;y`, which holds a semicolon. The same happens
to the piece `c=2;d=3` of the query `a=1&c=2;d=3`. -/
theorem C2_consent_fields_drop_parameter :
    (localURL (lit "/consent") (lit "client_id=abc&return_to=%2Fapp&state=x;y")).String =
      lit "http://localhost:8082/consent?client_id=abc&return_to=%2Fapp&state=x;y" ∧
    stringsContains
      (localURL (lit "/consent") (lit "client_id=abc&return_to=%2Fapp&state=x;y")).Path
      (lit "/consent") = true ∧
    (main [lit "login-bot", lit "a@b.c", lit "pw"] semicolonConsent).proc.requests =
      [.Get (lit "http://localhost:8082/login"),
        .PostForm (lit "http://localhost:8082/consent")
          [(lit "client_id", [lit "abc"]), (lit "return_to", [lit "/app"]),
            (lit "consent", [lit "approve"])]] ∧
    (consentValues
      (localURL (lit "/consent") (lit "client_id=abc&return_to=%2Fapp&state=x;y"))).lookup
      (lit "state") = none ∧
    (main [lit "login-bot", lit "a@b.c", lit "pw"] semicolonConsent).code = 0 ∧
    consentValues (localURL (lit "/consent") (lit "a=1&c=2;d=3")) =
      [(lit "a", [lit "1"]), (lit "consent", [lit "approve"])] := by
  decide

set_option maxRecDepth 4000 in
theorem consent_post_form_example :
    stringsContains consentPage.URL.Path (lit "/consent") = true ∧
    consentPage.URL.RawQuery = lit "scope=a&consent=deny&scope=b&consent=later" ∧
    consentValues consentPage.URL =
      [(lit "scope", [lit "a", lit "b"]), (lit "consent", [lit "approve"])] ∧
    (∃ target, (main [lit "login-bot", lit "a@b.c", lit "pw"]
        (consentFirst (lit "Login Successful"))).proc.requests =
      [.Get (lit "http://localhost:8082/login"),
        .PostForm target (consentValues consentPage.URL)]) :=
  ⟨by decide, rfl, by decide,
    (consent_post_form [lit "login-bot", lit "a@b.c", lit "pw"]
      (consentFirst (lit "Login Successful")) _ consentPage rfl (by decide)).1⟩

theorem escape_of_unreserved (s : GoString) (mode : Encoding)
    (h : ∀ c ∈ s, shouldEscape c mode = false) : escape s mode = s := by
  induction s with
  | nil => rfl
  | cons c t ih =>
    have hc := h c (List.mem_cons_self _ _)
    have ht := ih (fun x hx => h x (List.mem_cons_of_mem _ hx))
    unfold escape at ht ⊢
    rw [List.flatMap_cons, ht]
    by_cases hsp : c = ch ' '
    · subst hsp
      have hsp2 : shouldEscape (ch ' ') mode = true := by cases mode <;> decide
      rw [hsp2] at hc
      exact absurd hc (by decide)
    · simp [hsp, hc]

/-- C3: at a consent check on a path containing `/consent`, whatever the rest of the path,
the query and the fragment are, the consent POST goes to the URL with the scheme and the
host (and the user information, if any) of the current URL, the path `/consent`, no query
and no fragment: written out, `scheme://host/consent`. -/
theorem C3_consent_target (osArgs : List GoString) (net : Network) (p : Proc)
    (cur : Response) (hcheck : untilConsentCheck osArgs net = .ok (p, cur))
    (hpath : stringsContains cur.URL.Path (lit "/consent") = true) :
    ∃ consentUrl data,
      cur.URL.Parse (lit "/consent") = some consentUrl ∧
      (main osArgs net).proc.requests = p.requests ++ [.PostForm consentUrl.String data] ∧
      consentUrl.Scheme = cur.URL.Scheme ∧ consentUrl.Host = cur.URL.Host ∧
      consentUrl.User = cur.URL.User ∧ consentUrl.Opaque = [] ∧
      consentUrl.Path = lit "/consent" ∧ consentUrl.RawPath = [] ∧
      consentUrl.ForceQuery = false ∧ consentUrl.RawQuery = [] ∧
      consentUrl.Fragment = [] ∧ consentUrl.RawFragment = [] ∧
      consentUrl.String =
        (if cur.URL.Scheme = [] then [] else cur.URL.Scheme ++ lit ":") ++
        (if cur.URL.Scheme = [] ∧ cur.URL.Host = [] ∧ cur.URL.User = none then []
          else lit "//" ++ (match cur.URL.User with
            | some ui => ui.String ++ lit "@"
            | none => []) ++ escape cur.URL.Host .encodeHost) ++
        lit "/consent" ∧
      (cur.URL.Scheme ≠ [] → cur.URL.User = none →
        (∀ c ∈ cur.URL.Host, shouldEscape c .encodeHost = false) →
        consentUrl.String = cur.URL.Scheme ++ lit "://" ++ cur.URL.Host ++ lit "/consent") := by
  refine ⟨_, consentValues cur.URL, parse_consent cur.URL,
    (main_after_check osArgs net p cur hcheck hpath).1, rfl, rfl, rfl, rfl, rfl, rfl, rfl,
    rfl, rfl, rfl, consent_string _ _ _, ?_⟩
  intro hs hu hh
  rw [consent_string, escape_of_unreserved _ _ hh, hu]
  have e : lit "://" = lit ":" ++ lit "//" := by decide
  simp [hs, e]


set_option maxRecDepth 4000 in
theorem C3_consent_target_witness :
    stringsContains consentPage.URL.Path (lit "/consent") = true ∧
    consentPage.URL.String =
      lit "https://idp.example/auth/consent/step2?scope=a&consent=deny&scope=b&consent=later#top" ∧
    ∃ data, (main [lit "login-bot", lit "a@b.c", lit "pw"]
        (consentFirst (lit "Login Successful"))).proc.requests =
      [.Get (lit "http://localhost:8082/login"),
        .PostForm (lit "https://idp.example/consent") data] :=
  ⟨by decide, by decide, by
    obtain ⟨c, data, -, hreq, -, -, -, -, -, -, -, -, -, -, -, himp⟩ :=
      C3_consent_target [lit "login-bot", lit "a@b.c", lit "pw"]
        (consentFirst (lit "Login Successful")) _ consentPage rfl (by decide)
    refine ⟨data, ?_⟩
    rw [hreq, himp (by decide) rfl (by decide)]
    rfl⟩


/-- C4: a login POST is issued only when the GET landed on a path containing `/login`, and
a consent POST only right after a response on a path containing `/consent`; only the path
is looked at, so when the GET lands on a URL whose path contains neither, whatever its
query is, the GET is the only request of the run. -/
theorem C4_posts_only_on_path (osArgs : List GoString) (net : Network) :
    (∀ r ∈ (main osArgs net).proc.requests, r.isLoginPost = true →
      ∃ resp, net [.Get (startURL osArgs)] = .ok resp ∧
        stringsContains resp.URL.Path (lit "/login") = true) ∧
    (∀ j r, (main osArgs net).proc.requests.get? j = some r → r.isConsentPost = true →
      ∃ i req cur, j = i + 1 ∧ (main osArgs net).proc.calls.get? i = some (req, .ok cur) ∧
        stringsContains cur.URL.Path (lit "/consent") = true) ∧
    (∀ resp, 3 ≤ osArgs.length → net [.Get (startURL osArgs)] = .ok resp →
      stringsContains resp.URL.Path (lit "/login") = false →
      stringsContains resp.URL.Path (lit "/consent") = false →
      (main osArgs net).proc.requests = [.Get (startURL osArgs)]) := by
  have hlc := isLoginPost_consent
  have hcl := isConsentPost_login
  have hlg : ∀ url, (Request.Get url).isLoginPost = false := fun _ => rfl
  have hcg : ∀ url, (Request.Get url).isConsentPost = false := fun _ => rfl
  refine ⟨?_, ?_, ?_⟩
  · intro r hr hlogin
    rcases main_calls_cases osArgs net with ⟨_, hc⟩ | ⟨err, _, hc⟩ | ⟨r1, _, _, _, hc⟩ |
      ⟨r1, err, hn, hl, hc⟩ | ⟨r1, r2, hn, hl, _, hc⟩ | ⟨r1, res, _, _, _, hc⟩ |
      ⟨r1, r2, res, hn, hl, _, hc⟩
    · rw [Proc.requests, hc] at hr
      simp at hr
    · rw [Proc.requests, hc] at hr
      simp at hr
      rw [hr, hlg] at hlogin
      exact absurd hlogin (by decide)
    · rw [Proc.requests, hc] at hr
      simp at hr
      rw [hr, hlg] at hlogin
      exact absurd hlogin (by decide)
    · exact ⟨r1, hn, hl⟩
    · exact ⟨r1, hn, hl⟩
    · rw [Proc.requests, hc] at hr
      simp at hr
      rcases hr with hr | hr <;> rw [hr] at hlogin
      · rw [hlg] at hlogin
        exact absurd hlogin (by decide)
      · rw [hlc] at hlogin
        exact absurd hlogin (by decide)
    · exact ⟨r1, hn, hl⟩
  · intro j r hr hconsent
    rcases main_calls_cases osArgs net with ⟨_, hc⟩ | ⟨err, _, hc⟩ | ⟨r1, _, _, _, hc⟩ |
      ⟨r1, err, hn, hl, hc⟩ | ⟨r1, r2, hn, hl, _, hc⟩ | ⟨r1, res, _, _, hy, hc⟩ |
      ⟨r1, r2, res, hn, hl, hy, hc⟩ <;> rw [Proc.requests, hc] at hr <;> rw [hc]
    · simp at hr
    · rcases j with _ | j <;> simp at hr
      rw [← hr, hcg] at hconsent
      exact absurd hconsent (by decide)
    · rcases j with _ | j <;> simp at hr
      rw [← hr, hcg] at hconsent
      exact absurd hconsent (by decide)
    · rcases j with _ | _ | j <;> simp at hr
      · rw [← hr, hcg] at hconsent
        exact absurd hconsent (by decide)
      · rw [← hr, hcl] at hconsent
        exact absurd hconsent (by decide)
    · rcases j with _ | _ | j <;> simp at hr
      · rw [← hr, hcg] at hconsent
        exact absurd hconsent (by decide)
      · rw [← hr, hcl] at hconsent
        exact absurd hconsent (by decide)
    · rcases j with _ | _ | j <;> simp at hr
      · rw [← hr, hcg] at hconsent
        exact absurd hconsent (by decide)
      · exact ⟨0, _, r1, rfl, rfl, hy⟩
    · rcases j with _ | _ | _ | j <;> simp at hr
      · rw [← hr, hcg] at hconsent
        exact absurd hconsent (by decide)
      · rw [← hr, hcl] at hconsent
        exact absurd hconsent (by decide)
      · exact ⟨1, _, r2, rfl, rfl, hy⟩
  · intro resp hlen hget hnl hnc
    rcases main_calls_cases osArgs net with ⟨hlt, hc⟩ | ⟨err, hn, hc⟩ | ⟨r1, hn, _, _, hc⟩ |
      ⟨r1, err, hn, hl, hc⟩ | ⟨r1, r2, hn, hl, _, hc⟩ | ⟨r1, res, hn, _, hy, hc⟩ |
      ⟨r1, r2, res, hn, hl, hy, hc⟩
    · omega
    · rw [hget] at hn
      simp at hn
    · rw [Proc.requests, hc]
      rfl
    · rw [hget] at hn
      simp only [Except.ok.injEq] at hn
      subst hn
      rw [hnl] at hl
      simp at hl
    · rw [hget] at hn
      simp only [Except.ok.injEq] at hn
      subst hn
      rw [hnl] at hl
      simp at hl
    · rw [hget] at hn
      simp only [Except.ok.injEq] at hn
      subst hn
      rw [hnc] at hy
      simp at hy
    · rw [hget] at hn
      simp only [Except.ok.injEq] at hn
      subst hn
      rw [hnl] at hl
      simp at hl

theorem C4_posts_only_on_path_witness :
    stringsContains (lit "next=/login&from=/consent") (lit "/login") = true ∧
    stringsContains (lit "next=/login&from=/consent") (lit "/consent") = true ∧
    (main [lit "login-bot", lit "a@b.c", lit "pw"]
        (constNet { URL := localURL (lit "/home") (lit "next=/login&from=/consent"),
                    Body := lit "Login Successful" })).proc.requests =
      [.Get (lit "http://localhost:8082/login")] :=
  ⟨by decide, by decide,
    (C4_posts_only_on_path [lit "login-bot", lit "a@b.c", lit "pw"]
      (constNet { URL := localURL (lit "/home") (lit "next=/login&from=/consent"),
                  Body := lit "Login Successful" })).2.2
      { URL := localURL (lit "/home") (lit "next=/login&from=/consent"),
        Body := lit "Login Successful" }
      (by decide) rfl (by decide) (by decide)⟩


/-- C10: a run has at most one login POST and at most one consent POST; the consent POST is
the last request of the run, so no login POST follows it; after the login POST, whatever
its response lands on, no further login POST is issued; and after a consent POST that
succeeded, whatever its response lands on, no request is issued and the body of that
response is the one read for verification. -/
theorem C10_steps_once_in_order (osArgs : List GoString) (net : Network) :
    ((main osArgs net).proc.requests.filter Request.isLoginPost).length ≤ 1 ∧
    ((main osArgs net).proc.requests.filter Request.isConsentPost).length ≤ 1 ∧
    (∀ i r, (main osArgs net).proc.requests.get? i = some r → r.isConsentPost = true →
      (main osArgs net).proc.requests.length = i + 1) ∧
    (∀ i r, (main osArgs net).proc.requests.get? i = some r → r.isLoginPost = true →
      ∀ j s, i < j → (main osArgs net).proc.requests.get? j = some s →
        s.isLoginPost = false ∧ s.isConsentPost = true) ∧
    (∀ i req resp, (main osArgs net).proc.calls.get? i = some (req, .ok resp) →
      req.isConsentPost = true →
      (main osArgs net).proc.calls.length = i + 1 ∧
        (main osArgs net).proc.read = [resp.Body]) := by
  have hlc := isLoginPost_consent
  have hcl := isConsentPost_login
  have hll := isLoginPost_login
  have hcc := isConsentPost_consent
  have hlg : ∀ url, (Request.Get url).isLoginPost = false := fun _ => rfl
  have hcg : ∀ url, (Request.Get url).isConsentPost = false := fun _ => rfl
  refine ⟨?_, ?_, ?_, ?_, ?_⟩
  · rcases main_calls_cases osArgs net with ⟨_, hc⟩ | ⟨err, _, hc⟩ | ⟨r1, _, _, _, hc⟩ |
      ⟨r1, err, _, _, hc⟩ | ⟨r1, r2, _, _, _, hc⟩ | ⟨r1, res, _, _, _, hc⟩ |
      ⟨r1, r2, res, _, _, _, hc⟩ <;> rw [Proc.requests, hc] <;>
      simp [List.filter, hlc, hll, hlg]
  · rcases main_calls_cases osArgs net with ⟨_, hc⟩ | ⟨err, _, hc⟩ | ⟨r1, _, _, _, hc⟩ |
      ⟨r1, err, _, _, hc⟩ | ⟨r1, r2, _, _, _, hc⟩ | ⟨r1, res, _, _, _, hc⟩ |
      ⟨r1, r2, res, _, _, _, hc⟩ <;> rw [Proc.requests, hc] <;>
      simp [List.filter, hcl, hcc, hcg]
  · intro i r hr hcons
    rcases main_calls_cases osArgs net with ⟨_, hc⟩ | ⟨err, _, hc⟩ | ⟨r1, _, _, _, hc⟩ |
      ⟨r1, err, _, _, hc⟩ | ⟨r1, r2, _, _, _, hc⟩ | ⟨r1, res, _, _, _, hc⟩ |
      ⟨r1, r2, res, _, _, _, hc⟩ <;> rw [Proc.requests, hc] at hr ⊢ <;>
      rcases i with _ | _ | _ | i <;> simp at hr <;>
      first
        | rfl
        | (rw [← hr, hcg] at hcons; exact absurd hcons (by decide))
        | (rw [← hr, hcl] at hcons; exact absurd hcons (by decide))
  · intro i r hr hlogin j s hij hs
    rcases main_calls_cases osArgs net with ⟨_, hc⟩ | ⟨err, _, hc⟩ | ⟨r1, _, _, _, hc⟩ |
      ⟨r1, err, _, _, hc⟩ | ⟨r1, r2, _, _, _, hc⟩ | ⟨r1, res, _, _, _, hc⟩ |
      ⟨r1, r2, res, _, _, _, hc⟩ <;> rw [Proc.requests, hc] at hr hs <;>
      rcases i with _ | _ | _ | i <;> simp at hr <;>
      first
        | (rw [← hr, hlg] at hlogin; exact absurd hlogin (by decide))
        | (rw [← hr, hlc] at hlogin; exact absurd hlogin (by decide))
        | (rcases j with _ | _ | _ | j <;> simp at hs <;>
            first
              | omega
              | (rw [← hs]; exact ⟨hlc _ _, hcc _ _⟩))
  · intro i req resp hget hcons
    rcases main_leaves osArgs net with ⟨_, hc, _⟩ | ⟨_, _, _, err, hc, _⟩ |
      ⟨_, _, _, r1, err, _, hc, _⟩ | ⟨p, cur, hu, _, hc, _⟩ |
      ⟨p, cur, hu, _, _, _, err, hc⟩ | ⟨p, cur, p2, fin, hu, _, hc, hread, _⟩
    · rw [hc] at hget
      simp at hget
    · rw [hc] at hget
      rcases i with _ | i <;> simp at hget
    · rw [hc] at hget
      rcases i with _ | _ | i <;> simp at hget
      rw [← hget.1, hcg] at hcons
      exact absurd hcons (by decide)
    · rw [hc] at hget
      rcases (untilConsentCheck_ok _ _ _ _ hu).2.2 with ⟨_, hp, _⟩ | ⟨r1, _, hp, _⟩ <;>
        rw [hp] at hget <;> rcases i with _ | _ | i <;> simp at hget <;>
        first
          | (rw [← hget.1, hcg] at hcons; exact absurd hcons (by decide))
          | (rw [← hget.1, hcl] at hcons; exact absurd hcons (by decide))
    · rw [hc] at hget
      rcases (untilConsentCheck_ok _ _ _ _ hu).2.2 with ⟨_, hp, _⟩ | ⟨r1, _, hp, _⟩ <;>
        rw [hp] at hget <;> rcases i with _ | _ | _ | i <;> simp at hget <;>
        first
          | (rw [← hget.1, hcg] at hcons; exact absurd hcons (by decide))
          | (rw [← hget.1, hcl] at hcons; exact absurd hcons (by decide))
    · rw [hc] at hget ⊢
      rw [hread]
      rcases (untilConsentCheck_ok _ _ _ _ hu).2.2 with ⟨_, hp, _⟩ | ⟨r1, _, hp, _⟩ <;>
        rw [hp] at hget ⊢ <;> rcases i with _ | _ | _ | i <;> simp at hget <;>
        first
          | (rw [← hget.1, hcg] at hcons; exact absurd hcons (by decide))
          | (rw [← hget.1, hcl] at hcons; exact absurd hcons (by decide))
          | (rw [← hget.2]; exact ⟨rfl, rfl⟩)


set_option maxRecDepth 4000 in
theorem C10_steps_once_in_order_witness :
    (main [lit "login-bot", lit "a@b.c", lit "pw"] loginAgain).proc.requests =
      [.Get (lit "http://localhost:8082/login"),
        .PostForm (lit "http://localhost:8082/login") (loginValues (lit "a@b.c") (lit "pw"))] ∧
    ((main [lit "login-bot", lit "a@b.c", lit "pw"] loginAgain).proc.requests.filter
      Request.isLoginPost).length ≤ 1 ∧
    stringsContains (localURL (lit "/login") []).Path (lit "/login") = true ∧
    (main [lit "login-bot", lit "a@b.c", lit "pw"]
      (consentFirst (lit "<form>"))).proc.calls.length = 1 + 1 ∧
    (main [lit "login-bot", lit "a@b.c", lit "pw"]
      (consentFirst (lit "<form>"))).proc.read = [lit "<form>"] :=
  ⟨by decide,
    (C10_steps_once_in_order [lit "login-bot", lit "a@b.c", lit "pw"] loginAgain).1,
    by decide,
    (C10_steps_once_in_order [lit "login-bot", lit "a@b.c", lit "pw"]
      (consentFirst (lit "<form>"))).2.2.2.2 1
      (.PostForm (lit "https://idp.example/consent") (consentValues consentPage.URL))
      { URL := localURL (lit "/login") [], Body := lit "<form>" } rfl (by decide)⟩

end LoginBot
